import Mathlib

/-!
Verification of the Loom plugin-composition and site-preparation core
(`packages/core/src/index.ts`, `cli/src/cli.ts`).

The TypeScript core is shallowly embedded: JavaScript strings become
`List Char`, plugin setup/hook functions become Lean functions returning
`Except` (a thrown exception is an `Except.error` carrying the thrown
message), the mutable runtime context object becomes an association list
whose reads take the most recently written binding (JavaScript property
assignment semantics), and the sequential awaited loops of the source
become structural recursions over the plugin list.
-/

namespace Loom

/-- JavaScript strings are modelled as lists of characters. -/
abbrev Str := List Char

/-- Embed a Lean string literal as a `Str`. -/
def str (s : String) : Str := s.data

/-- The single-quote character (used by the frontmatter value parser). -/
def squote : Char := Char.ofNat 39

/-- `String.prototype.toLowerCase` (ASCII range, which covers all inputs the
core ever lowercases: file paths and the literal comparisons with
`"index"` / `".mdx"`). -/
def strToLower (l : Str) : Str := l.map Char.toLower

/-- `a.endsWith(b)` on JavaScript strings. -/
def strEndsWith (a b : Str) : Bool := b.isSuffixOf a

/-- `a.startsWith(b)` on JavaScript strings. -/
def strStartsWith (a b : Str) : Bool := b.isPrefixOf a

/-- Drop the last `n` characters, as `s.slice(0, -n)` does for `0 < n ≤ s.length`. -/
def strDropRight (l : Str) (n : Nat) : Str := l.take (l.length - n)

/-- `String.prototype.trim` (ASCII whitespace; the sources only ever trim
spaces and tabs around frontmatter keys, values and class names). -/
def strTrim (l : Str) : Str :=
  ((l.dropWhile Char.isWhitespace).reverse.dropWhile Char.isWhitespace).reverse

/-- Substring test: `hay.includes(needle)`. -/
def strContains : Str → Str → Bool
  | [], needle => needle.isEmpty
  | c :: t, needle => needle.isPrefixOf (c :: t) || strContains t needle

/-- Node's `path.basename` on forward-slash paths: strip trailing slashes,
then keep everything after the last remaining slash. -/
def basename (p : Str) : Str :=
  let q := (p.reverse.dropWhile (fun c => c = '/')).reverse
  if q = [] then (if p = [] then [] else str "/")
  else (q.reverse.takeWhile (fun c => c ≠ '/')).reverse

/-! ## Route paths (`toRoutePath`, `toRouteSlug`, `normalizeRoutePath`) -/

/-- `filePath.replace(/\.mdx$/i, '')`: strip one case-insensitive `.mdx`
extension from the end of the path. -/
def stripContentExt (filePath : Str) : Str :=
  if strEndsWith (strToLower filePath) (str ".mdx") then strDropRight filePath 4
  else filePath

/-- `toRoutePath` (core `index.ts`): derive the normalized route path of a
content file from its root-relative forward-slash path. -/
def toRoutePath (filePath : Str) : Str :=
  let withoutExt := stripContentExt filePath
  if strToLower withoutExt = str "index" then str "/"
  else if strEndsWith (strToLower withoutExt) (str "/index") then
    str "/" ++ strDropRight withoutExt 6
  else
    str "/" ++ withoutExt

/-- `toRouteSlug` (core `index.ts`). -/
def toRouteSlug (path : Str) : Option Str :=
  if path = str "/" then none
  else if strStartsWith path (str "/") then some (path.drop 1)
  else some path

/-- `normalizeRoutePath` (core `index.ts`): trim, force a leading slash,
strip a single trailing slash except for the root. -/
def normalizeRoutePath (routePath : Str) : Str :=
  let trimmed := strTrim routePath
  if trimmed = [] ∨ trimmed = str "/" then str "/"
  else
    let withLeadingSlash := if strStartsWith trimmed (str "/") then trimmed else str "/" ++ trimmed
    if strEndsWith withLeadingSlash (str "/") then strDropRight withLeadingSlash 1
    else withLeadingSlash

/-! ## Runtime context values -/

/-- A renderer plugin object (`LoomRendererPlugin`): a `name` string and two
functions `build`/`dev`, modelled opaquely by identifiers since the claims
never call them. -/
structure RendererPlugin where
  name : Str
  buildId : Nat
  devId : Nat
deriving DecidableEq, Repr

/-- A JavaScript value stored in the runtime context or a frontmatter map.
Numbers keep the literal text they were parsed from (no claim inspects the
numeric value itself, only `typeof`-style distinctions). Functions are
opaque identifiers. -/
inductive Value where
  | vNull : Value
  | vBool : Bool → Value
  | vNum : Str → Value
  | vStr : Str → Value
  | vFn : Nat → Value
  | vRenderer : RendererPlugin → Value
deriving DecidableEq, Repr

/-- Decidable equality for `Except` results (both payloads decidable). -/
instance {ε α : Type} [DecidableEq ε] [DecidableEq α] : DecidableEq (Except ε α) := fun a b =>
  match a, b with
  | .ok x, .ok y =>
    if h : x = y then .isTrue (by rw [h]) else .isFalse (by simp [h])
  | .error x, .error y =>
    if h : x = y then .isTrue (by rw [h]) else .isFalse (by simp [h])
  | .ok _, .error _ => .isFalse (by simp)
  | .error _, .ok _ => .isFalse (by simp)

/-- A JavaScript object as an association list.  Property writes append, and
reads take the most recently appended binding for the key, which is
observationally the same as in-place overwriting. -/
abbrev Ctx := List (Str × Value)

/-- Property read: the most recently written value for `q`, if any. -/
def ctxGet : Ctx → Str → Option Value
  | [], _ => none
  | (k, v) :: rest, q =>
    match ctxGet rest q with
    | some r => some r
    | none => if k = q then some v else none

/-- Zero-testing of a parsed JavaScript numeric literal (sign and exponent
stripped; a number is zero exactly when every mantissa digit is `0`). -/
def jsNumIsZero (raw : Str) : Bool :=
  let body := match raw with
    | '+' :: r => r
    | '-' :: r => r
    | r => r
  match body with
  | '0' :: 'x' :: r => r.all (fun c => c = '0')
  | '0' :: 'X' :: r => r.all (fun c => c = '0')
  | '0' :: 'o' :: r => r.all (fun c => c = '0')
  | '0' :: 'O' :: r => r.all (fun c => c = '0')
  | '0' :: 'b' :: r => r.all (fun c => c = '0')
  | '0' :: 'B' :: r => r.all (fun c => c = '0')
  | _ =>
    let mantissa := body.takeWhile (fun c => c ≠ 'e' ∧ c ≠ 'E')
    mantissa ≠ [] && mantissa.all (fun c => c = '0' ∨ c = '.')

/-- JavaScript truthiness of a possibly-absent context value
(`undefined`, `null`, `false`, `0` and `''` are falsy). -/
def truthy : Option Value → Bool
  | none => false
  | some .vNull => false
  | some (.vBool b) => b
  | some (.vNum raw) => !jsNumIsZero raw
  | some (.vStr s) => !s.isEmpty
  | some (.vFn _) => true
  | some (.vRenderer _) => true

/-! ## Plugin registration (`createLoom`, CLI `createRuntime`) -/

/-- A runtime plugin (`LoomRuntimePlugin`): `setup` receives the current
context and either returns the map of entries it provides (`some kvs`),
returns nothing (`none`, leaving the context alone), or throws
(`Except.error` with the thrown message). -/
structure RuntimePlugin where
  name : Str
  setup : Ctx → Except Str (Option (List (Str × Value)))

/-- `createLoom().use`'s merge step: if setup returned an object, every one
of its entries is written into the shared context (overwriting same-named
keys); a `void` return leaves the context unchanged. -/
def mergeProvided (ctx : Ctx) : Option (List (Str × Value)) → Ctx
  | none => ctx
  | some kvs => ctx ++ kvs

/-- The CLI `createRuntime` loop: `for (const plugin of config.runtimePlugins)
await loom.use(plugin)`.  Setups run strictly in declared order, each over
the context accumulated so far.  A throwing setup stops the loop; the error
propagates unwrapped, and the context keeps every entry merged before the
failure. -/
def registerPlugins : List RuntimePlugin → Ctx → Ctx × Option Str
  | [], ctx => (ctx, none)
  | p :: rest, ctx =>
    match p.setup ctx with
    | .error e => (ctx, some e)
    | .ok provided => registerPlugins rest (mergeProvided ctx provided)

/-- The context key a renderer plugin registers itself under. -/
def loomRendererKey : Str := str "__loomRenderer"

/-- `defineRendererPlugin` (core `index.ts`): a runtime plugin that
contributes `__loomRenderer` only when the context does not already hold a
(truthy) renderer, so the first registered renderer wins. -/
def defineRendererPlugin (renderer : RendererPlugin) : RuntimePlugin where
  name := renderer.name
  setup := fun ctx =>
    if truthy (ctxGet ctx loomRendererKey) then .ok none
    else .ok (some [(loomRendererKey, .vRenderer renderer)])

/-- `resolveRendererFromContext` (core `index.ts`): returns the stored
renderer when `__loomRenderer` holds an object with a string `name` and
callable `build`/`dev` — in this model, exactly a `Value.vRenderer`. -/
def resolveRendererFromContext (ctx : Ctx) : Option RendererPlugin :=
  match ctxGet ctx loomRendererKey with
  | some (.vRenderer r) => some r
  | _ => none

/-! ## Frontmatter parsing (`parseFrontmatter`) -/

/-- A frontmatter map is an object like the runtime context. -/
abbrev Frontmatter := Ctx

/-- `source.replaceAll('\r\n', '\n')`. -/
def replaceCRLF : Str → Str
  | [] => []
  | '\r' :: '\n' :: rest => '\n' :: replaceCRLF rest
  | c :: rest => c :: replaceCRLF rest

/-- `normalized.split('\n')` (an empty string yields one empty line). -/
def splitLines : Str → List Str
  | [] => [[]]
  | c :: rest =>
    match splitLines rest with
    | [] => [[]]
    | h :: t => if c = '\n' then [] :: h :: t else (c :: h) :: t

/-- Digit-sequence test used by the numeric-literal recognizer. -/
def allDigits (l : Str) : Bool := !l.isEmpty && l.all Char.isDigit

/-- Exponent part of a JavaScript decimal literal (`e5`, `E-2`, or empty). -/
def jsExpPart : Str → Bool
  | [] => true
  | 'e' :: r => (match r with
      | '+' :: r2 => allDigits r2
      | '-' :: r2 => allDigits r2
      | r2 => allDigits r2)
  | 'E' :: r => (match r with
      | '+' :: r2 => allDigits r2
      | '-' :: r2 => allDigits r2
      | r2 => allDigits r2)
  | _ => false

/-- Decimal body of a JavaScript numeric literal: digits, optional fraction,
optional exponent (`12`, `12.`, `.5`, `1e3`, `1.5E-2`). -/
def jsDecimalBody (l : Str) : Bool :=
  let ds := l.takeWhile Char.isDigit
  let rest := l.dropWhile Char.isDigit
  match rest with
  | [] => !ds.isEmpty
  | '.' :: r2 =>
    let fs := r2.takeWhile Char.isDigit
    let r3 := r2.dropWhile Char.isDigit
    (!ds.isEmpty || !fs.isEmpty) && jsExpPart r3
  | _ => !ds.isEmpty && jsExpPart rest

/-- `!Number.isNaN(Number(raw))` for a trimmed non-empty `raw`: the
JavaScript numeric-literal grammar (decimal with optional sign, `Infinity`,
and unsigned hex/octal/binary literals). -/
def jsIsNumeric (raw : Str) : Bool :=
  match raw with
  | [] => false
  | '0' :: 'x' :: r => !r.isEmpty && r.all (fun c => c.isDigit ∨ ('a' ≤ c ∧ c ≤ 'f') ∨ ('A' ≤ c ∧ c ≤ 'F'))
  | '0' :: 'X' :: r => !r.isEmpty && r.all (fun c => c.isDigit ∨ ('a' ≤ c ∧ c ≤ 'f') ∨ ('A' ≤ c ∧ c ≤ 'F'))
  | '0' :: 'o' :: r => !r.isEmpty && r.all (fun c => '0' ≤ c ∧ c ≤ '7')
  | '0' :: 'O' :: r => !r.isEmpty && r.all (fun c => '0' ≤ c ∧ c ≤ '7')
  | '0' :: 'b' :: r => !r.isEmpty && r.all (fun c => c = '0' ∨ c = '1')
  | '0' :: 'B' :: r => !r.isEmpty && r.all (fun c => c = '0' ∨ c = '1')
  | _ =>
    let body := match raw with
      | '+' :: r => r
      | '-' :: r => r
      | r => r
    body = str "Infinity" || jsDecimalBody body

/-- Parse one frontmatter value (`true`/`false`/`null` literals, quoted
strings, numeric literals, and bare strings as fallback). -/
def parseFmValue (raw : Str) : Value :=
  if raw = str "true" then .vBool true
  else if raw = str "false" then .vBool false
  else if raw = str "null" then .vNull
  else if strStartsWith raw (str "\"") && strEndsWith raw (str "\"") then
    .vStr (strDropRight (raw.drop 1) 1)
  else if strStartsWith raw [squote] && strEndsWith raw [squote] then
    .vStr (strDropRight (raw.drop 1) 1)
  else if jsIsNumeric raw then .vNum raw
  else .vStr raw

/-- The line loop of `parseFrontmatter`: reads `key: value` lines until the
closing `---`; lines without a proper separator are skipped; reaching the
end without a closing fence discards everything. -/
def parseFmLines : List Str → Frontmatter → Frontmatter
  | [], _ => []
  | line :: rest, fm =>
    if line = str "---" then fm
    else
      match line.findIdx? (fun c => c = ':') with
      | none => parseFmLines rest fm
      | some sep =>
        if sep = 0 then parseFmLines rest fm
        else
          let key := strTrim (line.take sep)
          let rawValue := strTrim (line.drop (sep + 1))
          if key = [] then parseFmLines rest fm
          else parseFmLines rest (fm ++ [(key, parseFmValue rawValue)])

/-- `parseFrontmatter` (core `index.ts`): a total function from source text
to a key/value map; absent or unterminated frontmatter yields the empty
map. -/
def parseFrontmatter (source : Str) : Frontmatter :=
  if !(strStartsWith source (str "---\n")) && !(strStartsWith source (str "---\r\n")) then []
  else
    let normalized := replaceCRLF source
    let lines := splitLines normalized
    match lines with
    | [] => []
    | first :: rest =>
      if first ≠ str "---" then []
      else parseFmLines rest []

/-! ## Site preparation data model -/

/-- `toStringArray`'s argument type: hook fields typed `string | string[]`. -/
inductive StrOrList where
  | single : Str → StrOrList
  | many : List Str → StrOrList
deriving DecidableEq, Repr

/-- `toStringArray` (core `index.ts`): `undefined` and the falsy empty
string become `[]`; a non-empty string becomes a singleton; arrays pass
through. -/
def toStringArray : Option StrOrList → List Str
  | none => []
  | some (.single s) => if s.isEmpty then [] else [s]
  | some (.many l) => l

/-- A page decoration contributed by one `mdxPage` hook call
(`LoomMdxPageDecoration`). -/
structure LoomMdxPageDecoration where
  afterContentHtml : Option StrOrList := none
  beforeContentHtml : Option StrOrList := none
  replaceContentHtml : Option Str := none
deriving DecidableEq, Repr

/-- The accumulated decoration stored on a content route
(`LoomPreparedRoute['mdxDecoration']`). -/
structure MdxDecorationAcc where
  afterContentHtml : List Str := []
  beforeContentHtml : List Str := []
  replaceContentHtml : Option Str := none
deriving DecidableEq, Repr

/-- Class-name fragments of a layout contribution (`classNames` field). -/
structure ContributionClassNames where
  content : Option Str := none
  footer : Option Str := none
  header : Option Str := none
  main : Option Str := none
  root : Option Str := none
  sidebar : Option Str := none
deriving DecidableEq, Repr

/-- Slot fragments of a layout contribution (`slots` field). -/
structure ContributionSlots where
  footer : Option StrOrList := none
  header : Option StrOrList := none
  sidebarBottom : Option StrOrList := none
  sidebarTop : Option StrOrList := none
deriving DecidableEq, Repr

/-- `LoomLayoutContribution`. -/
structure LoomLayoutContribution where
  classNames : Option ContributionClassNames := none
  hideDefaultFooter : Option Bool := none
  hideDefaultHeader : Option Bool := none
  hideDefaultSidebar : Option Bool := none
  slots : Option ContributionSlots := none
deriving DecidableEq, Repr

/-- Merged class names of the prepared layout. -/
structure LayoutClassNames where
  content : Option Str := none
  footer : Option Str := none
  header : Option Str := none
  main : Option Str := none
  root : Option Str := none
  sidebar : Option Str := none
deriving DecidableEq, Repr

/-- Merged slot fragments of the prepared layout. -/
structure LayoutSlots where
  footer : List Str := []
  header : List Str := []
  sidebarBottom : List Str := []
  sidebarTop : List Str := []
deriving DecidableEq, Repr

/-- `LoomPreparedLayout`. -/
structure PreparedLayout where
  classNames : LayoutClassNames := {}
  hideDefaultFooter : Bool := false
  hideDefaultHeader : Bool := false
  hideDefaultSidebar : Bool := false
  slots : LayoutSlots := {}
deriving DecidableEq, Repr

/-- `LoomExtraPage`: a plugin-synthesized page. -/
structure LoomExtraPage where
  html : Str
  navLabel : Option Str := none
  order : Option Int := none
  path : Str
  showInSidebar : Option Bool := none
  title : Option Str := none
deriving DecidableEq, Repr

/-- Route kinds: content-derived (`mdx`) or plugin-synthesized (`html`). -/
inductive RouteKind where
  | mdx : RouteKind
  | html : RouteKind
deriving DecidableEq, Repr

/-- `LoomPreparedRoute`. -/
structure PreparedRoute where
  kind : RouteKind
  file : Option Str := none
  frontmatter : Frontmatter := []
  html : Option Str := none
  path : Str
  slug : Option Str := none
  title : Str
  navLabel : Str
  showInSidebar : Bool
  mdxDecoration : Option MdxDecorationAcc := none
deriving DecidableEq, Repr

/-! ## Hook plugins (`LoomPlugin`) and the preparation pipeline -/

/-- Argument record of a `transformMdx` hook call. -/
structure TransformMdxInput where
  file : Str
  frontmatter : Frontmatter
  path : Str
  renderer : Str
  root : Str
  source : Str

/-- Argument record of an `mdxPage` hook call. -/
structure MdxPageInput where
  file : Str
  frontmatter : Frontmatter
  path : Str
  renderer : Str
  root : Str
  source : Str
  title : Str

/-- Argument record of an `extendLayout` or `extendPages` hook call; both
receive the renderer identifier, the project root and the current (live)
route list. -/
structure SiteHookInput where
  renderer : Str
  root : Str
  routes : List PreparedRoute

/-- `LoomPluginHooks`: each hook is optional; a throwing hook is an
`Except.error` carrying the thrown message. -/
structure LoomPluginHooks where
  extendLayout : Option (SiteHookInput → Except Str (Option LoomLayoutContribution)) := none
  extendPages : Option (SiteHookInput → Except Str (Option (List LoomExtraPage))) := none
  mdxPage : Option (MdxPageInput → Except Str (Option LoomMdxPageDecoration)) := none
  transformMdx : Option (TransformMdxInput → Except Str Str) := none

/-- `LoomPlugin`: a named bundle of hooks. -/
structure LoomPlugin where
  name : Str
  hooks : LoomPluginHooks := {}

/-- `formatPluginError` (core `index.ts`): wrap a hook failure with the
plugin's name and the hook's name, preserving the underlying message. -/
def formatPluginError (pluginName hookName detail : Str) : Str :=
  str "Plugin \"" ++ pluginName ++ str "\" failed in hook \"" ++ hookName
    ++ str "\": " ++ detail

/-- `typeof frontmatter.title === 'string' ? frontmatter.title :
basename(path === '/' ? 'index' : path)`. -/
def routeTitle (fm : Frontmatter) (path : Str) : Str :=
  match ctxGet fm (str "title") with
  | some (.vStr t) => t
  | _ => basename (if path = str "/" then str "index" else path)

/-- The per-file content-transform pass: every plugin's `transformMdx` hook
in declared order, re-parsing frontmatter after each transform; a throw
aborts with a `formatPluginError`-wrapped message. -/
def runTransformMdx (renderer root file path : Str) :
    List LoomPlugin → Str → Frontmatter → Except Str (Str × Frontmatter)
  | [], source, fm => .ok (source, fm)
  | p :: rest, source, fm =>
    match p.hooks.transformMdx with
    | none => runTransformMdx renderer root file path rest source fm
    | some hook =>
      match hook ⟨file, fm, path, renderer, root, source⟩ with
      | .error e => .error (formatPluginError p.name (str "transformMdx") e)
      | .ok newSource =>
        runTransformMdx renderer root file path rest newSource (parseFrontmatter newSource)

/-- One `mdxPage` contribution folded into the accumulated decoration:
before/after fragments are appended, a string `replaceContentHtml`
overwrites any previous replace value. -/
def decorateStep (acc : MdxDecorationAcc) (c : LoomMdxPageDecoration) : MdxDecorationAcc where
  beforeContentHtml := acc.beforeContentHtml ++ toStringArray c.beforeContentHtml
  afterContentHtml := acc.afterContentHtml ++ toStringArray c.afterContentHtml
  replaceContentHtml :=
    match c.replaceContentHtml with
    | some r => some r
    | none => acc.replaceContentHtml

/-- The per-file page-decoration pass: every plugin's `mdxPage` hook in
declared order over the file's final source. -/
def runMdxPage (input : MdxPageInput) :
    List LoomPlugin → MdxDecorationAcc → Except Str MdxDecorationAcc
  | [], acc => .ok acc
  | p :: rest, acc =>
    match p.hooks.mdxPage with
    | none => runMdxPage input rest acc
    | some hook =>
      match hook input with
      | .error e => .error (formatPluginError p.name (str "mdxPage") e)
      | .ok none => runMdxPage input rest acc
      | .ok (some c) => runMdxPage input rest (decorateStep acc c)

/-- Build the content route and the `(file, final source)` pair for one
scanned file. -/
def prepareMdxFile (plugins : List LoomPlugin) (renderer root : Str)
    (file source : Str) : Except Str (PreparedRoute × (Str × Str)) :=
  let path := toRoutePath file
  match runTransformMdx renderer root file path plugins source (parseFrontmatter source) with
  | .error e => .error e
  | .ok (finalSource, fm) =>
    let title := routeTitle fm path
    match runMdxPage ⟨file, fm, path, renderer, root, finalSource, title⟩ plugins {} with
    | .error e => .error e
    | .ok deco =>
      let navLabel :=
        match ctxGet fm (str "navLabel") with
        | some (.vStr n) => n
        | _ => title
      let showInSidebar := ctxGet fm (str "sidebar") ≠ some (.vBool false)
      .ok (⟨RouteKind.mdx, some file, fm, none, path, toRouteSlug path, title,
            navLabel, showInSidebar, some deco⟩,
           (file, finalSource))

/-- The per-file loop of `prepareLoomSite` over the scanned file list. -/
def prepareMdxRoutes (plugins : List LoomPlugin) (renderer root : Str) :
    List (Str × Str) → Except Str (List PreparedRoute × List (Str × Str))
  | [] => .ok ([], [])
  | (file, source) :: rest =>
    match prepareMdxFile plugins renderer root file source with
    | .error e => .error e
    | .ok (route, mdxFile) =>
      match prepareMdxRoutes plugins renderer root rest with
      | .error e => .error e
      | .ok (routes, mdxFiles) => .ok (route :: routes, mdxFile :: mdxFiles)

/-- `parts.join(' ')` on a JavaScript array of strings. -/
def spaceJoin : List Str → Str
  | [] => []
  | [s] => s
  | s :: rest => s ++ ' ' :: spaceJoin rest

/-- `[layout.classNames[key], value].filter(Boolean).join(' ').trim()`,
collapsing to unset when empty; a falsy (empty) contributed value is
skipped. -/
def mergeClassName (acc : Option Str) (value : Option Str) : Option Str :=
  match value with
  | none => acc
  | some v =>
    if v.isEmpty then acc
    else
      let parts := (acc.toList ++ [v]).filter (fun s => !s.isEmpty)
      let merged := strTrim (spaceJoin parts)
      if merged.isEmpty then none else some merged

/-- One `extendLayout` contribution merged into the accumulated layout:
hide flags are overridden by non-undefined values, class names merged per
region, slot fragments appended per region. -/
def mergeLayoutContribution (layout : PreparedLayout) (c : LoomLayoutContribution) :
    PreparedLayout :=
  let cn := c.classNames.getD {}
  { hideDefaultHeader := c.hideDefaultHeader.getD layout.hideDefaultHeader
    hideDefaultFooter := c.hideDefaultFooter.getD layout.hideDefaultFooter
    hideDefaultSidebar := c.hideDefaultSidebar.getD layout.hideDefaultSidebar
    classNames :=
      { content := mergeClassName layout.classNames.content cn.content
        footer := mergeClassName layout.classNames.footer cn.footer
        header := mergeClassName layout.classNames.header cn.header
        main := mergeClassName layout.classNames.main cn.main
        root := mergeClassName layout.classNames.root cn.root
        sidebar := mergeClassName layout.classNames.sidebar cn.sidebar }
    slots :=
      { header := layout.slots.header ++ toStringArray (c.slots.bind (·.header))
        footer := layout.slots.footer ++ toStringArray (c.slots.bind (·.footer))
        sidebarTop := layout.slots.sidebarTop ++ toStringArray (c.slots.bind (·.sidebarTop))
        sidebarBottom :=
          layout.slots.sidebarBottom ++ toStringArray (c.slots.bind (·.sidebarBottom)) } }

/-- The layout-extension pass: every plugin's `extendLayout` hook exactly
once (after the per-file loops, with the full content route list). -/
def runExtendLayout (renderer root : Str) (routes : List PreparedRoute) :
    List LoomPlugin → PreparedLayout → Except Str PreparedLayout
  | [], layout => .ok layout
  | p :: rest, layout =>
    match p.hooks.extendLayout with
    | none => runExtendLayout renderer root routes rest layout
    | some hook =>
      match hook ⟨renderer, root, routes⟩ with
      | .error e => .error (formatPluginError p.name (str "extendLayout") e)
      | .ok none => runExtendLayout renderer root routes rest layout
      | .ok (some c) => runExtendLayout renderer root routes rest (mergeLayoutContribution layout c)

/-- The collision error thrown inside the extra-pages loop. -/
def collisionMessage (path : Str) : Str :=
  str "Route path collision for \"" ++ path ++ str "\"."

/-- `page.title?.trim() || basename(path === '/' ? 'index' : path)`. -/
def extraPageTitle (page : LoomExtraPage) (path : Str) : Str :=
  let fallback := basename (if path = str "/" then str "index" else path)
  match page.title with
  | none => fallback
  | some t => let t2 := strTrim t; if t2.isEmpty then fallback else t2

/-- A synthesized page turned into a route (after collision checking). -/
def extraPageToRoute (path : Str) (page : LoomExtraPage) : PreparedRoute :=
  let title := extraPageTitle page path
  let navLabel :=
    match page.navLabel with
    | none => title
    | some n => let n2 := strTrim n; if n2.isEmpty then title else n2
  ⟨RouteKind.html, none, [], some page.html, path, toRouteSlug path, title,
   navLabel, page.showInSidebar.getD true, none⟩

/-- The inner loop over one plugin's synthesized pages: each normalized path
is checked against the set of already-taken paths and then claimed. -/
def addExtraPages : List LoomExtraPage → List Str → List PreparedRoute →
    Except Str (List Str × List PreparedRoute)
  | [], taken, routes => .ok (taken, routes)
  | page :: rest, taken, routes =>
    let path := normalizeRoutePath page.path
    if path ∈ taken then .error (collisionMessage path)
    else addExtraPages rest (path :: taken) (routes ++ [extraPageToRoute path page])

/-- The extra-pages pass: every plugin's `extendPages` hook once, in order;
both a throwing hook and a path collision abort with a
`formatPluginError`-wrapped message. -/
def runExtendPages (renderer root : Str) :
    List LoomPlugin → List Str → List PreparedRoute → Except Str (List PreparedRoute)
  | [], _, routes => .ok routes
  | p :: rest, taken, routes =>
    match p.hooks.extendPages with
    | none => runExtendPages renderer root rest taken routes
    | some hook =>
      match hook ⟨renderer, root, routes⟩ with
      | .error e => .error (formatPluginError p.name (str "extendPages") e)
      | .ok pages =>
        match addExtraPages (pages.getD []) taken routes with
        | .error e => .error (formatPluginError p.name (str "extendPages") e)
        | .ok (taken2, routes2) => runExtendPages renderer root rest taken2 routes2

/-- Lexicographic comparison standing in for `localeCompare` in the final
sort (the claims only depend on the sorted list up to permutation). -/
def strLeB : Str → Str → Bool
  | [], _ => true
  | _ :: _, [] => false
  | a :: as, b :: bs => if a < b then true else if b < a then false else strLeB as bs

/-- Insert a route into an already sorted route list. -/
def insertSorted (le : PreparedRoute → PreparedRoute → Bool) (r : PreparedRoute) :
    List PreparedRoute → List PreparedRoute
  | [] => [r]
  | x :: xs => if le r x then r :: x :: xs else x :: insertSorted le r xs

/-- The final stable sort of the route list (`routes.sort(...)`), as an
insertion sort; the claims depend on the result only up to permutation. -/
def sortRoutes (le : PreparedRoute → PreparedRoute → Bool) :
    List PreparedRoute → List PreparedRoute
  | [] => []
  | x :: xs => insertSorted le x (sortRoutes le xs)

/-- `LoomPreparedSite` (the resolved config is carried by the caller and not
inspected by any claim, so it is omitted here). -/
structure PreparedSite where
  root : Str
  layout : PreparedLayout
  routes : List PreparedRoute
  mdxFiles : List (Str × Str)
  pageCount : Nat
deriving DecidableEq, Repr

/-- `prepareLoomSite` (core `index.ts`): content routes from the scanned
`(file, source)` list, then the layout pass, then the extra-pages pass with
collision detection, then the final path sort. -/
def prepareLoomSite (plugins : List LoomPlugin) (renderer root : Str)
    (files : List (Str × Str)) : Except Str PreparedSite :=
  match prepareMdxRoutes plugins renderer root files with
  | .error e => .error e
  | .ok (routes, mdxFiles) =>
    match runExtendLayout renderer root routes plugins {} with
    | .error e => .error e
    | .ok layout =>
      match runExtendPages renderer root plugins (routes.map (·.path)) routes with
      | .error e => .error e
      | .ok allRoutes =>
        let sorted := sortRoutes (fun a b => strLeB a.path b.path) allRoutes
        .ok ⟨root, layout, sorted, mdxFiles, sorted.length⟩

/-! ## Command contract enforcement

The function enforcing the command contract (`resolveLoomRuntime` in
`@loom/core`) is exercised by the CLI and its test-suite but its own source
is not among the files here, so it is modelled from the spec. -/

/-- The error raised by the contract check: the list of missing capability
names (in declared order) and whether the renderer hint is attached. -/
structure ContractError where
  missing : List Str
  rendererHint : Bool
deriving DecidableEq, Repr

/-- The four required command capabilities, in declared order. -/
def requiredCommandCapabilities : List Str :=
  [str "list", str "validate", str "build", str "dev"]

/-- `typeof value === 'function'`. -/
def isCallable (v : Option Value) : Bool :=
  match v with
  | some (.vFn _) => true
  | _ => false

/-- Modelled from the spec: `enforceCommandContract(context)` — the missing
part is the contract-enforcing runtime resolver of `@loom/core` (only its
CLI callers and tests appear in the sources).  Per the spec it checks that
`list`, `validate`, `build`, `dev` are all present and callable; any subset
missing produces one combined error naming exactly the missing capabilities
in declared order, with an additional renderer hint when `build` or `dev`
is among them. -/
def enforceCommandContract (ctx : Ctx) : Except ContractError Unit :=
  let missing := requiredCommandCapabilities.filter (fun c => !isCallable (ctxGet ctx c))
  if missing.isEmpty then .ok ()
  else .error ⟨missing, missing.contains (str "build") || missing.contains (str "dev")⟩

/-! ## Specification-side combinators used by the theorem statements -/

/-- The ordered list of decorations the `mdxPage` hooks of a plugin list
actually contribute for a given input (plugins without the hook, hooks
returning nothing, and throwing hooks contribute nothing). -/
def mdxPageContribs (plugins : List LoomPlugin) (input : MdxPageInput) :
    List LoomMdxPageDecoration :=
  plugins.filterMap (fun p =>
    match p.hooks.mdxPage with
    | none => none
    | some hook =>
      match hook input with
      | .ok c => c
      | .error _ => none)

/-- Concatenation of one decoration field over an ordered contribution
list. -/
def concatFrags (f : LoomMdxPageDecoration → Option StrOrList) :
    List LoomMdxPageDecoration → List Str
  | [] => []
  | c :: rest => toStringArray (f c) ++ concatFrags f rest

/-- The replace fragment after an ordered contribution list: the last
contribution supplying one wins. -/
def lastReplace : List LoomMdxPageDecoration → Option Str → Option Str
  | [], acc => acc
  | c :: rest, acc =>
    lastReplace rest
      (match c.replaceContentHtml with
       | some r => some r
       | none => acc)

/-- The ordered list of layout contributions the `extendLayout` hooks of a
plugin list actually produce for a given input. -/
def layoutContribs (plugins : List LoomPlugin) (input : SiteHookInput) :
    List LoomLayoutContribution :=
  plugins.filterMap (fun p =>
    match p.hooks.extendLayout with
    | none => none
    | some hook =>
      match hook input with
      | .ok c => c
      | .error _ => none)

/-- A hide-flag after an ordered contribution list: the last non-undefined
override wins. -/
def lastOverride (f : LoomLayoutContribution → Option Bool) :
    List LoomLayoutContribution → Bool → Bool
  | [], b => b
  | c :: rest, b => lastOverride f rest ((f c).getD b)

/-- Concatenation of one slot region over an ordered contribution list. -/
def concatSlots (f : LoomLayoutContribution → Option StrOrList) :
    List LoomLayoutContribution → List Str
  | [] => []
  | c :: rest => toStringArray (f c) ++ concatSlots f rest

/-- The class-name fragment a contribution offers for one region. -/
def contribClassName (f : ContributionClassNames → Option Str)
    (c : LoomLayoutContribution) : Option Str :=
  f (c.classNames.getD {})

/-- A class-name fragment in normal form: non-empty with no leading or
trailing whitespace. -/
abbrev tidyFrag (l : Str) : Prop :=
  l ≠ [] ∧ (l.headD ' ').isWhitespace = false
    ∧ (l.reverse.headD ' ').isWhitespace = false

/-- An error message attributable to some plugin of the list: produced by
`formatPluginError` from the plugin's name, a hook name and an underlying
detail message. -/
def attributedError (plugins : List LoomPlugin) (e : Str) : Prop :=
  ∃ p ∈ plugins, ∃ hookName detail, e = formatPluginError p.name hookName detail

/-! ## Concrete fixtures (used by witnesses and counterexamples) -/

/-- A setup contributing one `seed` entry. -/
def fxSeedPlugin : RuntimePlugin :=
  ⟨str "seed", fun _ => .ok (some [(str "seed", .vStr (str "stable-order"))])⟩

/-- A setup overwriting `seed` and adding `extra`. -/
def fxOverridePlugin : RuntimePlugin :=
  ⟨str "override", fun _ =>
    .ok (some [(str "seed", .vStr (str "later")), (str "extra", .vStr (str "x"))])⟩

/-- A setup returning nothing. -/
def fxNoopPlugin : RuntimePlugin := ⟨str "noop", fun _ => .ok none⟩

/-- A setup that throws `"boom"`. -/
def fxThrowingSetupPlugin : RuntimePlugin := ⟨str "alpha", fun _ => .error (str "boom")⟩

/-- A setup providing only `list` and `validate` (the `missing-contract`
test scenario). -/
def fxPartialPlugin : RuntimePlugin :=
  ⟨str "partial", fun _ => .ok (some [(str "list", .vFn 1), (str "validate", .vFn 2)])⟩

/-- A setup providing all four command capabilities. -/
def fxContractPlugin : RuntimePlugin :=
  ⟨str "contract", fun _ =>
    .ok (some [(str "list", .vFn 1), (str "validate", .vFn 2),
               (str "build", .vFn 3), (str "dev", .vFn 4)])⟩

/-- Two distinct renderer objects. -/
def fxRendererA : RendererPlugin := ⟨str "renderer-a", 1, 2⟩

/-- See `fxRendererA`. -/
def fxRendererB : RendererPlugin := ⟨str "renderer-b", 3, 4⟩

/-- A decorating plugin contributing before/after fragments and a replace
fragment. -/
def fxDecoPluginA : LoomPlugin :=
  { name := str "deco-a"
    hooks := { mdxPage := some (fun _ => .ok (some
      { beforeContentHtml := some (.single (str "[a-before]"))
        afterContentHtml := some (.many [str "[a-after-1]", str "[a-after-2]"])
        replaceContentHtml := some (str "[a-replace]") })) } }

/-- A second decorating plugin whose replace fragment supersedes
`fxDecoPluginA`'s. -/
def fxDecoPluginB : LoomPlugin :=
  { name := str "deco-b"
    hooks := { mdxPage := some (fun _ => .ok (some
      { beforeContentHtml := some (.single (str "[b-before]"))
        afterContentHtml := some (.single (str "[b-after]"))
        replaceContentHtml := some (str "[b-replace]") })) } }

/-- A plugin whose `mdxPage` hook throws `"boom"`. -/
def fxThrowingMdxPagePlugin : LoomPlugin :=
  { name := str "thrower"
    hooks := { mdxPage := some (fun _ => .error (str "boom")) } }

/-- A plugin synthesizing one extra page at a fixed path. -/
def fxExtraPagePlugin (pluginName pagePath : Str) : LoomPlugin :=
  { name := pluginName
    hooks := { extendPages := some (fun _ =>
      .ok (some [{ html := str "[extra]", path := pagePath }])) } }

/-- A layout plugin hiding the header and contributing header class/slot
fragments. -/
def fxLayoutPluginA : LoomPlugin :=
  { name := str "layout-a"
    hooks := { extendLayout := some (fun _ => .ok (some
      { hideDefaultHeader := some true
        classNames := some { header := some (str "a-h") }
        slots := some { header := some (.single (str "[slot-a]")) } })) } }

/-- A second layout plugin overriding the hide flag back to `false` and
appending further header fragments. -/
def fxLayoutPluginB : LoomPlugin :=
  { name := str "layout-b"
    hooks := { extendLayout := some (fun _ => .ok (some
      { hideDefaultHeader := some false
        classNames := some { header := some (str "b-h") }
        slots := some { header := some (.many [str "[slot-b1]", str "[slot-b2]"]) } })) } }

/-- A content file whose derived title the humanization claim is about. -/
def fxGuideFiles : List (Str × Str) := [(str "guide/setup.mdx", str "hello")]

/-- The preparation run on `fxGuideFiles` with no plugins. -/
def fxPrepGuide : Except Str PreparedSite :=
  prepareLoomSite [] (str "vite-react") (str "root") fxGuideFiles

/-- Fallback route used to destructure fixture sites. -/
def fxFallbackRoute : PreparedRoute :=
  ⟨RouteKind.mdx, none, [], none, [], none, [], [], true, none⟩

/-- The prepared site of `fxPrepGuide`. -/
def fxSiteGuide : PreparedSite := fxPrepGuide.toOption.getD ⟨[], {}, [], [], 0⟩

/-- The single route of `fxSiteGuide`. -/
def fxRouteGuide : PreparedRoute := fxSiteGuide.routes.headD fxFallbackRoute

/-- A successful preparation containing one synthesized route. -/
def fxPrepExtra : Except Str PreparedSite :=
  prepareLoomSite [fxExtraPagePlugin (str "p1") (str "/extra")]
    (str "vite-react") (str "root") [(str "index.mdx", str "x")]

/-- The prepared site of `fxPrepExtra`. -/
def fxSiteExtra : PreparedSite := fxPrepExtra.toOption.getD ⟨[], {}, [], [], 0⟩

/-- The synthesized route of `fxSiteExtra`. -/
def fxRouteExtra : PreparedRoute :=
  (fxSiteExtra.routes.filter (fun r => r.kind = RouteKind.html)).headD fxFallbackRoute

/-- A fixed `mdxPage` hook input used to exercise the decoration pass. -/
def fxMdxInput : MdxPageInput :=
  ⟨str "a.mdx", [], str "/a", str "vite-react", str "root", str "body", str "a"⟩

/-- The decoration accumulated by `fxDecoPluginA` then `fxDecoPluginB`. -/
def fxDecoResult : MdxDecorationAcc :=
  (runMdxPage fxMdxInput [fxDecoPluginA, fxDecoPluginB] {}).toOption.getD {}

/-- A fixed `extendLayout` hook input. -/
def fxLayoutInput : SiteHookInput := ⟨str "vite-react", str "root", []⟩

/-- The layout merged from `fxLayoutPluginA` then `fxLayoutPluginB`. -/
def fxLayoutResult : PreparedLayout :=
  (runExtendLayout (str "vite-react") (str "root") [] [fxLayoutPluginA, fxLayoutPluginB] {}).toOption.getD {}

/-! ## Shared lemmas -/

theorem ctxGet_append (a b : Ctx) (q : Str) :
    ctxGet (a ++ b) q
      = match ctxGet b q with
        | some v => some v
        | none => ctxGet a q := by
  induction a with
  | nil =>
    cases h : ctxGet b q <;> simp [h, ctxGet]
  | cons kv a ih =>
    obtain ⟨k, v⟩ := kv
    cases h : ctxGet b q with
    | some r =>
      have : ctxGet (a ++ b) q = some r := by rw [ih, h]
      simp [ctxGet, this, h]
    | none =>
      have : ctxGet (a ++ b) q = ctxGet a q := by rw [ih, h]
      simp [ctxGet, this, h]

theorem registerPlugins_append (ps1 ps2 : List RuntimePlugin) (ctx : Ctx)
    (h : (registerPlugins ps1 ctx).2 = none) :
    registerPlugins (ps1 ++ ps2) ctx = registerPlugins ps2 (registerPlugins ps1 ctx).1 := by
  induction ps1 generalizing ctx with
  | nil => simp [registerPlugins]
  | cons p rest ih =>
    cases hs : p.setup ctx with
    | error e =>
      rw [registerPlugins, hs] at h
      simp at h
    | ok provided =>
      rw [registerPlugins, hs] at h
      have step : registerPlugins ((p :: rest) ++ ps2) ctx
          = registerPlugins (rest ++ ps2) (mergeProvided ctx provided) := by
        rw [List.cons_append, registerPlugins, hs]
      rw [step, ih _ h, registerPlugins, hs]

theorem isPrefixOf_append_self (m y : Str) : m.isPrefixOf (m ++ y) = true := by
  induction m with
  | nil => simp
  | cons c m ih => simp [List.isPrefixOf, ih]

theorem strContains_nil_needle (hay : Str) : strContains hay [] = true := by
  cases hay <;> simp [strContains]

theorem strContains_append_mid (x m y : Str) : strContains (x ++ m ++ y) m = true := by
  induction x with
  | nil =>
    cases m with
    | nil => simpa using strContains_nil_needle y
    | cons c t =>
      have := isPrefixOf_append_self (c :: t) y
      simp only [List.nil_append, List.cons_append, strContains]
      simp [this]
  | cons c x ih =>
    have hstep : strContains (c :: (x ++ m ++ y)) m
        = (m.isPrefixOf (c :: (x ++ m ++ y)) || strContains (x ++ m ++ y) m) := rfl
    simp only [List.cons_append]
    rw [hstep, ih, Bool.or_true]

theorem strEndsWith_append (x y : Str) : strEndsWith (x ++ y) y = true := by
  simp [strEndsWith, List.isSuffixOf, List.reverse_append, isPrefixOf_append_self]

theorem strDropRight_append (a b : Str) : strDropRight (a ++ b) b.length = a := by
  simp [strDropRight, List.length_append]

theorem strToLower_append (a b : Str) : strToLower (a ++ b) = strToLower a ++ strToLower b :=
  List.map_append _ a b

theorem stripContentExt_append (p : Str) : stripContentExt (p ++ str ".mdx") = p := by
  have hlow : strToLower (p ++ str ".mdx") = strToLower p ++ str ".mdx" := by
    rw [strToLower_append]
    rfl
  have hend : strEndsWith (strToLower (p ++ str ".mdx")) (str ".mdx") = true := by
    rw [hlow]
    exact strEndsWith_append _ _
  have hlen : strDropRight (p ++ str ".mdx") 4 = p := strDropRight_append p (str ".mdx")
  rw [stripContentExt, hend]
  simpa using hlen

theorem insertSorted_perm (le : PreparedRoute → PreparedRoute → Bool) (r : PreparedRoute) :
    ∀ l : List PreparedRoute, List.Perm (insertSorted le r l) (r :: l) := by
  intro l
  induction l with
  | nil => exact List.Perm.refl _
  | cons x xs ih =>
    rw [insertSorted]
    by_cases hle : le r x = true
    · rw [if_pos hle]
    · rw [if_neg hle]
      exact (ih.cons x).trans (List.Perm.swap r x xs)

theorem sortRoutes_perm (le : PreparedRoute → PreparedRoute → Bool) :
    ∀ l : List PreparedRoute, List.Perm (sortRoutes le l) l := by
  intro l
  induction l with
  | nil => exact List.Perm.refl _
  | cons x xs ih =>
    rw [sortRoutes]
    exact (insertSorted_perm le x (sortRoutes le xs)).trans (ih.cons x)

/-! ## Claim theorems -/

/-- C1: plugin registration invokes each plugin's setup strictly in declared
order over the context accumulated so far — a setup observes exactly the
contributions of plugins declared before it (the context handed to `p` is a
function of `ps1` and the initial context only, never of `ps2`); every key
of a returned map is written into the shared context with a later writer
silently overwriting an earlier same-named key; a setup returning nothing
leaves the context unchanged. -/
theorem registerPlugins_order_and_merge (ps1 : List RuntimePlugin) (p : RuntimePlugin)
    (ps2 : List RuntimePlugin) (ctx0 : Ctx)
    (hok : (registerPlugins ps1 ctx0).2 = none) :
    (registerPlugins (ps1 ++ p :: ps2) ctx0
      = match p.setup (registerPlugins ps1 ctx0).1 with
        | .error e => ((registerPlugins ps1 ctx0).1, some e)
        | .ok provided =>
            registerPlugins ps2 (mergeProvided (registerPlugins ps1 ctx0).1 provided))
    ∧ mergeProvided (registerPlugins ps1 ctx0).1 none = (registerPlugins ps1 ctx0).1
    ∧ ∀ kvs k, ctxGet (mergeProvided (registerPlugins ps1 ctx0).1 (some kvs)) k
        = match ctxGet kvs k with
          | some v => some v
          | none => ctxGet (registerPlugins ps1 ctx0).1 k := by
  refine ⟨?_, rfl, ?_⟩
  · rw [registerPlugins_append ps1 (p :: ps2) ctx0 hok]
    cases hs : p.setup (registerPlugins ps1 ctx0).1 with
    | error e => rw [registerPlugins, hs]
    | ok provided => rw [registerPlugins, hs]
  · intro kvs k
    exact ctxGet_append _ kvs k

/-- Witness for C1 at a concrete two-plugin list: the second plugin's
`seed` entry overwrites the first plugin's. -/
theorem registerPlugins_order_and_merge_witness :
    ctxGet (mergeProvided (registerPlugins [fxSeedPlugin] []).1
        (some [(str "seed", Value.vStr (str "later")), (str "extra", Value.vStr (str "x"))]))
      (str "seed")
      = some (Value.vStr (str "later")) := by
  have h := (registerPlugins_order_and_merge [fxSeedPlugin] fxOverridePlugin [] [] (by decide)).2.2
  rw [h]
  decide

/-- C4 counterexample: a setup that throws `"boom"` makes registration fail
with exactly the underlying message `"boom"`; the offending plugin's name
(`"alpha"`) appears nowhere in it, contradicting the claim that the error
message contains the plugin's name.  The context still shows the earlier
plugin's entry retained and nothing from the failing plugin. -/
theorem setup_throw_error_lacks_plugin_name :
    registerPlugins [fxSeedPlugin, fxThrowingSetupPlugin] []
      = ([(str "seed", Value.vStr (str "stable-order"))], some (str "boom"))
    ∧ strContains (str "boom") fxThrowingSetupPlugin.name = false := by
  exact ⟨by decide, by decide⟩

/-- C4 (amended): a throwing setup fails registration immediately with the
underlying error message itself (unwrapped, without the plugin's name);
none of that plugin's entries are merged and the context keeps exactly the
entries contributed by earlier plugins; the plugins declared after it never
run. -/
theorem registerPlugins_setup_throw (ps1 : List RuntimePlugin) (p : RuntimePlugin)
    (ps2 : List RuntimePlugin) (ctx0 : Ctx) (e : Str)
    (hok : (registerPlugins ps1 ctx0).2 = none)
    (hthrow : p.setup (registerPlugins ps1 ctx0).1 = .error e) :
    registerPlugins (ps1 ++ p :: ps2) ctx0 = ((registerPlugins ps1 ctx0).1, some e) := by
  rw [registerPlugins_append ps1 (p :: ps2) ctx0 hok, registerPlugins, hthrow]

/-- Witness for C4's amended theorem at a concrete input. -/
theorem registerPlugins_setup_throw_witness :
    registerPlugins ([fxSeedPlugin] ++ fxThrowingSetupPlugin :: [fxOverridePlugin]) []
      = ((registerPlugins [fxSeedPlugin] []).1, some (str "boom")) :=
  registerPlugins_setup_throw [fxSeedPlugin] fxThrowingSetupPlugin [fxOverridePlugin] []
    (str "boom") (by decide) rfl

/-- C10: a renderer plugin built with `defineRendererPlugin` only registers
itself when no renderer is present: over a context whose `__loomRenderer`
entry already holds a renderer, its setup returns nothing and registration
leaves the context unchanged; registering two renderer plugins over a
renderer-free context keeps the first and resolves to it. -/
theorem defineRendererPlugin_first_wins :
    (∀ (ctx : Ctx) (r r0 : RendererPlugin),
      ctxGet ctx loomRendererKey = some (.vRenderer r0) →
        (defineRendererPlugin r).setup ctx = .ok none
        ∧ registerPlugins [defineRendererPlugin r] ctx = (ctx, none))
    ∧ (∀ (ctx : Ctx) (r1 r2 : RendererPlugin),
      truthy (ctxGet ctx loomRendererKey) = false →
        registerPlugins [defineRendererPlugin r1, defineRendererPlugin r2] ctx
          = (ctx ++ [(loomRendererKey, .vRenderer r1)], none)
        ∧ resolveRendererFromContext
            (registerPlugins [defineRendererPlugin r1, defineRendererPlugin r2] ctx).1
          = some r1) := by
  constructor
  · intro ctx r r0 hset
    have hsetup : (defineRendererPlugin r).setup ctx = .ok none := by
      simp [defineRendererPlugin, hset, truthy]
    refine ⟨hsetup, ?_⟩
    rw [registerPlugins, hsetup]
    rfl
  · intro ctx r1 r2 htr
    have hsetup1 : (defineRendererPlugin r1).setup ctx
        = .ok (some [(loomRendererKey, .vRenderer r1)]) := by
      simp [defineRendererPlugin, htr]
    have hget : ctxGet (ctx ++ [(loomRendererKey, Value.vRenderer r1)]) loomRendererKey
        = some (.vRenderer r1) := by
      rw [ctxGet_append]
      simp [ctxGet]
    have hsetup2 : (defineRendererPlugin r2).setup (ctx ++ [(loomRendererKey, .vRenderer r1)])
        = .ok none := by
      simp [defineRendererPlugin, hget, truthy]
    have hreg : registerPlugins [defineRendererPlugin r1, defineRendererPlugin r2] ctx
        = (ctx ++ [(loomRendererKey, .vRenderer r1)], none) := by
      rw [registerPlugins, hsetup1]
      show registerPlugins [defineRendererPlugin r2] (ctx ++ [(loomRendererKey, .vRenderer r1)])
        = _
      rw [registerPlugins, hsetup2]
      rfl
    refine ⟨hreg, ?_⟩
    rw [hreg]
    simp [resolveRendererFromContext, hget]

/-- Witness for C10 at concrete contexts and renderers. -/
theorem defineRendererPlugin_first_wins_witness :
    (defineRendererPlugin fxRendererB).setup [(loomRendererKey, Value.vRenderer fxRendererA)]
      = .ok none
    ∧ resolveRendererFromContext
        (registerPlugins [defineRendererPlugin fxRendererA, defineRendererPlugin fxRendererB] []).1
      = some fxRendererA :=
  ⟨(defineRendererPlugin_first_wins.1 [(loomRendererKey, Value.vRenderer fxRendererA)]
      fxRendererB fxRendererA (by decide)).1,
   (defineRendererPlugin_first_wins.2 [] fxRendererA fxRendererB (by decide)).2⟩

/-- C5: route-path derivation is a pure function of the file path alone:
after stripping the content extension, a file whose whole stripped path is
(case-insensitively) `index` maps to `/`; a file ending in `/index`
(case-insensitively) maps to its parent directory path; every other file
maps to `/` plus its extension-stripped relative path; and deriving twice
from the same file yields the same path. -/
theorem toRoutePath_rules :
    (∀ p : Str, strToLower p = str "index" → toRoutePath (p ++ str ".mdx") = str "/")
    ∧ (∀ d n : Str, strToLower n = str "index" →
        toRoutePath ((d ++ str "/" ++ n) ++ str ".mdx") = str "/" ++ d)
    ∧ (∀ p : Str, strToLower p ≠ str "index" →
        strEndsWith (strToLower p) (str "/index") = false →
        toRoutePath (p ++ str ".mdx") = str "/" ++ p)
    ∧ (∀ f : Str, toRoutePath f = toRoutePath f) := by
  refine ⟨?_, ?_, ?_, fun _ => rfl⟩
  · intro p hp
    simp only [toRoutePath, stripContentExt_append]
    rw [if_pos hp]
  · intro d n hn
    have hassoc : (d ++ str "/" ++ n) = d ++ (str "/" ++ n) := by
      rw [List.append_assoc]
    have hmem : ('/' : Char) ∈ strToLower (d ++ str "/" ++ n) := by
      have h1 : ('/' : Char) ∈ d ++ str "/" ++ n := by
        rw [hassoc]
        exact List.mem_append_right d (List.mem_append_left n (by decide))
      have h2 := List.mem_map_of_mem Char.toLower h1
      have h3 : Char.toLower '/' = '/' := by decide
      rw [h3] at h2
      exact h2
    have hne : strToLower (d ++ str "/" ++ n) ≠ str "index" := by
      intro heq
      rw [heq] at hmem
      exact absurd hmem (by decide)
    have hjoin : (str "/" : Str) ++ str "index" = str "/index" := by decide
    have hlowslash : strToLower (str "/") = str "/" := by decide
    have hlow : strToLower (d ++ str "/" ++ n) = strToLower d ++ str "/index" := by
      rw [hassoc, strToLower_append, strToLower_append, hlowslash, hn, hjoin]
    have hend : strEndsWith (strToLower (d ++ str "/" ++ n)) (str "/index") = true := by
      rw [hlow]
      exact strEndsWith_append _ _
    have hidx5 : (str "index" : Str).length = 5 := by decide
    have hnlen : n.length = 5 := by
      have hc := congrArg List.length hn
      rw [hidx5] at hc
      simpa [strToLower] using hc
    have hslash1 : (str "/" : Str).length = 1 := by decide
    have h6 : ((str "/" : Str) ++ n).length = 6 := by
      rw [List.length_append, hslash1, hnlen]
    have hdrop : strDropRight (d ++ str "/" ++ n) 6 = d := by
      rw [hassoc]
      have hb := strDropRight_append d (str "/" ++ n)
      rw [h6] at hb
      exact hb
    simp only [toRoutePath, stripContentExt_append]
    rw [if_neg hne, if_pos hend, hdrop]
  · intro p hp hend
    simp only [toRoutePath, stripContentExt_append]
    rw [if_neg hp, if_neg (by simp [hend])]

/-- Witness for C5 at concrete file paths. -/
theorem toRoutePath_rules_witness :
    toRoutePath ((str "guide" ++ str "/" ++ str "index") ++ str ".mdx")
      = str "/" ++ str "guide"
    ∧ toRoutePath (str "a/b" ++ str ".mdx") = str "/" ++ str "a/b"
    ∧ toRoutePath (str "index" ++ str ".mdx") = str "/" :=
  ⟨toRoutePath_rules.2.1 (str "guide") (str "index") (by decide),
   toRoutePath_rules.2.2.1 (str "a/b") (by decide) (by decide),
   toRoutePath_rules.1 (str "index") (by decide)⟩

/-- C3 (spec-modelled): after registration, the contract check succeeds
exactly when all four command capabilities are callable; otherwise it fails
with one combined error naming exactly the missing capabilities in declared
order, carrying the renderer hint exactly when `build` or `dev` is among
them.  Concretely, the `list`/`validate`-only plugin of the test scenario
fails naming exactly `build, dev` with the hint, and an all-four plugin
passes. -/
theorem enforceCommandContract_spec :
    (∀ ctx : Ctx, enforceCommandContract ctx = .ok ()
      ↔ ∀ c ∈ requiredCommandCapabilities, isCallable (ctxGet ctx c) = true)
    ∧ (∀ (ctx : Ctx) (err : ContractError), enforceCommandContract ctx = .error err →
        (∀ c, c ∈ err.missing
          ↔ c ∈ requiredCommandCapabilities ∧ isCallable (ctxGet ctx c) = false)
        ∧ err.missing ≠ []
        ∧ List.Sublist err.missing requiredCommandCapabilities
        ∧ (err.rendererHint = true
            ↔ (str "build" ∈ err.missing ∨ str "dev" ∈ err.missing)))
    ∧ enforceCommandContract (registerPlugins [fxPartialPlugin] []).1
        = .error ⟨[str "build", str "dev"], true⟩
    ∧ enforceCommandContract (registerPlugins [fxContractPlugin] []).1 = .ok () := by
  refine ⟨?_, ?_, by decide, by decide⟩
  · intro ctx
    rw [enforceCommandContract]
    by_cases hm : requiredCommandCapabilities.filter (fun c => !isCallable (ctxGet ctx c)) = []
    · simp only [hm, List.isEmpty_nil, if_true]
      constructor
      · intro _ c hc
        have := (List.filter_eq_nil_iff.mp hm) c hc
        simpa using this
      · intro _
        trivial
    · have hne : (requiredCommandCapabilities.filter
          (fun c => !isCallable (ctxGet ctx c))).isEmpty = false := by
        simpa [List.isEmpty_iff] using hm
      simp only [hne, Bool.false_eq_true, if_false]
      constructor
      · intro h
        exact absurd h (by simp)
      · intro hall
        exact absurd (List.filter_eq_nil_iff.mpr (by simpa using hall)) hm
  · intro ctx err h
    rw [enforceCommandContract] at h
    by_cases hm : requiredCommandCapabilities.filter (fun c => !isCallable (ctxGet ctx c)) = []
    · simp [hm] at h
    · have hne : (requiredCommandCapabilities.filter
          (fun c => !isCallable (ctxGet ctx c))).isEmpty = false := by
        simpa [List.isEmpty_iff] using hm
      simp only [hne, Bool.false_eq_true, if_false, Except.error.injEq] at h
      subst h
      refine ⟨?_, hm, List.filter_sublist _, ?_⟩
      · intro c
        simp [List.mem_filter]
      · simp [List.elem_iff]

/-- Witness for C3 applied at the `list`/`validate`-only context: `build` is
reported missing. -/
theorem enforceCommandContract_spec_witness :
    str "build" ∈ ([str "build", str "dev"] : List Str) := by
  have h := (enforceCommandContract_spec.2.1 (registerPlugins [fxPartialPlugin] []).1
      ⟨[str "build", str "dev"], true⟩ (by decide)).1
  exact (h (str "build")).mpr (by decide)

theorem runMdxPage_spec (input : MdxPageInput) (plugins : List LoomPlugin) :
    ∀ acc d : MdxDecorationAcc, runMdxPage input plugins acc = .ok d →
      d.beforeContentHtml
        = acc.beforeContentHtml
          ++ concatFrags (fun c => c.beforeContentHtml) (mdxPageContribs plugins input)
      ∧ d.afterContentHtml
        = acc.afterContentHtml
          ++ concatFrags (fun c => c.afterContentHtml) (mdxPageContribs plugins input)
      ∧ d.replaceContentHtml
        = lastReplace (mdxPageContribs plugins input) acc.replaceContentHtml := by
  induction plugins with
  | nil =>
    intro acc d h
    rw [runMdxPage] at h
    injection h with h
    subst h
    simp [mdxPageContribs, concatFrags, lastReplace]
  | cons p rest ih =>
    intro acc d h
    cases hk : p.hooks.mdxPage with
    | none =>
      simp only [runMdxPage, hk] at h
      have hrec := ih acc d h
      simpa [mdxPageContribs, List.filterMap_cons, hk] using hrec
    | some hook =>
      cases hr : hook input with
      | error e =>
        simp only [runMdxPage, hk, hr] at h
        exact Except.noConfusion h
      | ok copt =>
        cases copt with
        | none =>
          simp only [runMdxPage, hk, hr] at h
          have hrec := ih acc d h
          simpa [mdxPageContribs, List.filterMap_cons, hk, hr] using hrec
        | some c =>
          simp only [runMdxPage, hk, hr] at h
          have hrec := ih (decorateStep acc c) d h
          have hcon : mdxPageContribs (p :: rest) input = c :: mdxPageContribs rest input := by
            simp [mdxPageContribs, List.filterMap_cons, hk, hr]
          rw [hcon]
          refine ⟨?_, ?_, ?_⟩
          · rw [hrec.1]
            simp [decorateStep, concatFrags, List.append_assoc]
          · rw [hrec.2.1]
            simp [decorateStep, concatFrags, List.append_assoc]
          · rw [hrec.2.2]
            rfl

/-- C7: in the page-decoration pass, for every file input and plugin list,
all before/after fragments contributed by all plugins are retained in the
accumulated route, in plugin contribution order (contributions of a plugin
list split as `ps1 ++ ps2` are exactly the contributions of `ps1` followed
by those of `ps2`), while at most one replace fragment is kept — the last
plugin to supply one overwrites any previous replace value. -/
theorem mdxPage_decoration_accumulation (input : MdxPageInput) (plugins : List LoomPlugin)
    (acc d : MdxDecorationAcc) (h : runMdxPage input plugins acc = .ok d) :
    d.beforeContentHtml
      = acc.beforeContentHtml
        ++ concatFrags (fun c => c.beforeContentHtml) (mdxPageContribs plugins input)
    ∧ d.afterContentHtml
      = acc.afterContentHtml
        ++ concatFrags (fun c => c.afterContentHtml) (mdxPageContribs plugins input)
    ∧ d.replaceContentHtml
      = lastReplace (mdxPageContribs plugins input) acc.replaceContentHtml
    ∧ ∀ ps1 ps2 : List LoomPlugin,
        mdxPageContribs (ps1 ++ ps2) input
          = mdxPageContribs ps1 input ++ mdxPageContribs ps2 input := by
  have hspec := runMdxPage_spec input plugins acc d h
  exact ⟨hspec.1, hspec.2.1, hspec.2.2,
    fun ps1 ps2 => by simp [mdxPageContribs, List.filterMap_append]⟩

/-- Witness for C7 on the two concrete decorating plugins: the second
plugin's replace fragment is the one kept, and both plugins' before
fragments survive in order. -/
theorem mdxPage_decoration_accumulation_witness :
    fxDecoResult.beforeContentHtml
      = ([] : List Str)
        ++ concatFrags (fun c => c.beforeContentHtml)
            (mdxPageContribs [fxDecoPluginA, fxDecoPluginB] fxMdxInput)
    ∧ fxDecoResult.replaceContentHtml
      = lastReplace (mdxPageContribs [fxDecoPluginA, fxDecoPluginB] fxMdxInput) none :=
  have h := mdxPage_decoration_accumulation fxMdxInput [fxDecoPluginA, fxDecoPluginB]
    {} fxDecoResult (by decide)
  ⟨h.1, h.2.2.1⟩

theorem strTrim_eq_self (l : Str) (h1 : l ≠ [])
    (hh : (l.headD ' ').isWhitespace = false)
    (hl : (l.reverse.headD ' ').isWhitespace = false) : strTrim l = l := by
  cases l with
  | nil => exact absurd rfl h1
  | cons c t =>
    have hh2 : c.isWhitespace = false := hh
    have hstep1 : (c :: t).dropWhile Char.isWhitespace = c :: t := by
      simp [List.dropWhile_cons, hh2]
    rw [strTrim, hstep1]
    cases hr : (c :: t).reverse with
    | nil => simp at hr
    | cons d r =>
      have hd : d.isWhitespace = false := by
        have hdd : ((c :: t).reverse.headD ' ') = d := by rw [hr]; rfl
        rw [← hdd]
        exact hl
      have hstep2 : (d :: r).dropWhile Char.isWhitespace = d :: r := by
        simp [List.dropWhile_cons, hd]
      have hback : (d :: r).reverse = c :: t := by
        rw [← hr, List.reverse_reverse]
      rw [hstep2, hback]

theorem mergeClassName_tidy (a v : Str) (ha : tidyFrag a) (hv : tidyFrag v) :
    mergeClassName (some a) (some v) = some (a ++ ' ' :: v)
    ∧ tidyFrag (a ++ ' ' :: v) := by
  obtain ⟨ha1, ha2, ha3⟩ := ha
  obtain ⟨hv1, hv2, hv3⟩ := hv
  have hae : a.isEmpty = false := by
    cases a with
    | nil => exact absurd rfl ha1
    | cons _ _ => rfl
  have hve : v.isEmpty = false := by
    cases v with
    | nil => exact absurd rfl hv1
    | cons _ _ => rfl
  have htidy : tidyFrag (a ++ ' ' :: v) := by
    refine ⟨by simp, ?_, ?_⟩
    · cases a with
      | nil => exact absurd rfl ha1
      | cons x xs => exact ha2
    · rw [List.reverse_append]
      cases hvr : v.reverse with
      | nil =>
        rw [List.reverse_eq_nil_iff] at hvr
        exact absurd hvr hv1
      | cons y ys =>
        have hy : y.isWhitespace = false := by
          have hyy : (v.reverse.headD ' ') = y := by rw [hvr]; rfl
          rw [← hyy]
          exact hv3
        have hrw : (' ' :: v).reverse = y :: (ys ++ [' ']) := by
          rw [List.reverse_cons, hvr, List.cons_append]
        rw [hrw, List.cons_append]
        exact hy
  refine ⟨?_, htidy⟩
  have hparts : (((some a).toList ++ [v]).filter (fun s => !s.isEmpty)) = [a, v] := by
    simp [Option.toList, List.filter, hae, hve]
  have hjoin : spaceJoin [a, v] = a ++ ' ' :: v := rfl
  have htrim : strTrim (a ++ ' ' :: v) = a ++ ' ' :: v :=
    strTrim_eq_self _ htidy.1 htidy.2.1 htidy.2.2
  have hne : (a ++ ' ' :: v).isEmpty = false := by
    cases a with
    | nil => rfl
    | cons _ _ => rfl
  simp only [mergeClassName, hve, Bool.false_eq_true, if_false, hparts, hjoin, htrim, hne]

theorem spaceJoin_glue (x v : Str) (rest : List Str) :
    spaceJoin ((x ++ ' ' :: v) :: rest) = x ++ ' ' :: spaceJoin (v :: rest) := by
  cases rest with
  | nil => rfl
  | cons r t => simp [spaceJoin, List.append_assoc]

theorem foldl_mergeClassName_tidy (vs : List Str) :
    ∀ a : Str, tidyFrag a → (∀ v ∈ vs, tidyFrag v) →
      (vs.map some).foldl mergeClassName (some a) = some (spaceJoin (a :: vs)) := by
  induction vs with
  | nil => intro a _ _; rfl
  | cons v rest ih =>
    intro a ha hvs
    have hv := hvs v (by simp)
    have hmerge := mergeClassName_tidy a v ha hv
    rw [List.map_cons, List.foldl_cons, hmerge.1,
      ih _ hmerge.2 (fun w hw => hvs w (by simp [hw])), spaceJoin_glue]
    rfl

theorem mergeClassName_none_tidy (v : Str) (hv : tidyFrag v) :
    mergeClassName none (some v) = some v := by
  have hve : v.isEmpty = false := by
    cases v with
    | nil => exact absurd rfl hv.1
    | cons _ _ => rfl
  have hparts : (((none : Option Str).toList ++ [v]).filter (fun s => !s.isEmpty)) = [v] := by
    simp [Option.toList, List.filter, hve]
  have htrim : strTrim v = v := strTrim_eq_self v hv.1 hv.2.1 hv.2.2
  simp only [mergeClassName, hve, Bool.false_eq_true, if_false, hparts, spaceJoin, htrim]

theorem runExtendLayout_spec (renderer root : Str) (routes : List PreparedRoute)
    (plugins : List LoomPlugin) :
    ∀ L0 L : PreparedLayout,
      runExtendLayout renderer root routes plugins L0 = .ok L →
      L = { hideDefaultHeader :=
              lastOverride (fun c => c.hideDefaultHeader)
                (layoutContribs plugins ⟨renderer, root, routes⟩) L0.hideDefaultHeader
            hideDefaultFooter :=
              lastOverride (fun c => c.hideDefaultFooter)
                (layoutContribs plugins ⟨renderer, root, routes⟩) L0.hideDefaultFooter
            hideDefaultSidebar :=
              lastOverride (fun c => c.hideDefaultSidebar)
                (layoutContribs plugins ⟨renderer, root, routes⟩) L0.hideDefaultSidebar
            classNames :=
              { content := ((layoutContribs plugins ⟨renderer, root, routes⟩).map
                    (contribClassName (fun n => n.content))).foldl mergeClassName
                    L0.classNames.content
                footer := ((layoutContribs plugins ⟨renderer, root, routes⟩).map
                    (contribClassName (fun n => n.footer))).foldl mergeClassName
                    L0.classNames.footer
                header := ((layoutContribs plugins ⟨renderer, root, routes⟩).map
                    (contribClassName (fun n => n.header))).foldl mergeClassName
                    L0.classNames.header
                main := ((layoutContribs plugins ⟨renderer, root, routes⟩).map
                    (contribClassName (fun n => n.main))).foldl mergeClassName
                    L0.classNames.main
                root := ((layoutContribs plugins ⟨renderer, root, routes⟩).map
                    (contribClassName (fun n => n.root))).foldl mergeClassName
                    L0.classNames.root
                sidebar := ((layoutContribs plugins ⟨renderer, root, routes⟩).map
                    (contribClassName (fun n => n.sidebar))).foldl mergeClassName
                    L0.classNames.sidebar }
            slots :=
              { header := L0.slots.header
                  ++ concatSlots (fun c => c.slots.bind (·.header))
                      (layoutContribs plugins ⟨renderer, root, routes⟩)
                footer := L0.slots.footer
                  ++ concatSlots (fun c => c.slots.bind (·.footer))
                      (layoutContribs plugins ⟨renderer, root, routes⟩)
                sidebarTop := L0.slots.sidebarTop
                  ++ concatSlots (fun c => c.slots.bind (·.sidebarTop))
                      (layoutContribs plugins ⟨renderer, root, routes⟩)
                sidebarBottom := L0.slots.sidebarBottom
                  ++ concatSlots (fun c => c.slots.bind (·.sidebarBottom))
                      (layoutContribs plugins ⟨renderer, root, routes⟩) } } := by
  induction plugins with
  | nil =>
    intro L0 L h
    rw [runExtendLayout] at h
    injection h with h
    subst h
    simp [layoutContribs, lastOverride, concatSlots]
  | cons p rest ih =>
    intro L0 L h
    cases hk : p.hooks.extendLayout with
    | none =>
      simp only [runExtendLayout, hk] at h
      have hcon : layoutContribs (p :: rest) ⟨renderer, root, routes⟩
          = layoutContribs rest ⟨renderer, root, routes⟩ := by
        simp [layoutContribs, List.filterMap_cons, hk]
      rw [hcon]
      exact ih L0 L h
    | some hook =>
      cases hr : hook ⟨renderer, root, routes⟩ with
      | error e =>
        simp only [runExtendLayout, hk, hr] at h
        exact Except.noConfusion h
      | ok copt =>
        cases copt with
        | none =>
          simp only [runExtendLayout, hk, hr] at h
          have hcon : layoutContribs (p :: rest) ⟨renderer, root, routes⟩
              = layoutContribs rest ⟨renderer, root, routes⟩ := by
            simp [layoutContribs, List.filterMap_cons, hk, hr]
          rw [hcon]
          exact ih L0 L h
        | some c =>
          simp only [runExtendLayout, hk, hr] at h
          have hcon : layoutContribs (p :: rest) ⟨renderer, root, routes⟩
              = c :: layoutContribs rest ⟨renderer, root, routes⟩ := by
            simp [layoutContribs, List.filterMap_cons, hk, hr]
          rw [hcon, ih (mergeLayoutContribution L0 c) L h]
          simp [mergeLayoutContribution, lastOverride, concatSlots, contribClassName,
            List.append_assoc]

/-- C9: in the layout-extension pass each plugin contributes exactly once
(the contribution list of `ps1 ++ ps2` is that of `ps1` followed by that of
`ps2`, with one entry per hook-carrying plugin, independent of the content
files); hide-flag overrides are applied in plugin order with a
non-undefined value winning, slot fragments are appended per region in
plugin order, and class-name fragments per region are merged by the
space-join-and-trim rule, where normal-form fragments join into one
space-separated string and an all-whitespace fragment collapses to
unset. -/
theorem extendLayout_merge (renderer root : Str) (routes : List PreparedRoute)
    (plugins : List LoomPlugin) (L0 L : PreparedLayout)
    (h : runExtendLayout renderer root routes plugins L0 = .ok L) :
    (L = { hideDefaultHeader :=
             lastOverride (fun c => c.hideDefaultHeader)
               (layoutContribs plugins ⟨renderer, root, routes⟩) L0.hideDefaultHeader
           hideDefaultFooter :=
             lastOverride (fun c => c.hideDefaultFooter)
               (layoutContribs plugins ⟨renderer, root, routes⟩) L0.hideDefaultFooter
           hideDefaultSidebar :=
             lastOverride (fun c => c.hideDefaultSidebar)
               (layoutContribs plugins ⟨renderer, root, routes⟩) L0.hideDefaultSidebar
           classNames :=
             { content := ((layoutContribs plugins ⟨renderer, root, routes⟩).map
                   (contribClassName (fun n => n.content))).foldl mergeClassName
                   L0.classNames.content
               footer := ((layoutContribs plugins ⟨renderer, root, routes⟩).map
                   (contribClassName (fun n => n.footer))).foldl mergeClassName
                   L0.classNames.footer
               header := ((layoutContribs plugins ⟨renderer, root, routes⟩).map
                   (contribClassName (fun n => n.header))).foldl mergeClassName
                   L0.classNames.header
               main := ((layoutContribs plugins ⟨renderer, root, routes⟩).map
                   (contribClassName (fun n => n.main))).foldl mergeClassName
                   L0.classNames.main
               root := ((layoutContribs plugins ⟨renderer, root, routes⟩).map
                   (contribClassName (fun n => n.root))).foldl mergeClassName
                   L0.classNames.root
               sidebar := ((layoutContribs plugins ⟨renderer, root, routes⟩).map
                   (contribClassName (fun n => n.sidebar))).foldl mergeClassName
                   L0.classNames.sidebar }
           slots :=
             { header := L0.slots.header
                 ++ concatSlots (fun c => c.slots.bind (·.header))
                     (layoutContribs plugins ⟨renderer, root, routes⟩)
               footer := L0.slots.footer
                 ++ concatSlots (fun c => c.slots.bind (·.footer))
                     (layoutContribs plugins ⟨renderer, root, routes⟩)
               sidebarTop := L0.slots.sidebarTop
                 ++ concatSlots (fun c => c.slots.bind (·.sidebarTop))
                     (layoutContribs plugins ⟨renderer, root, routes⟩)
               sidebarBottom := L0.slots.sidebarBottom
                 ++ concatSlots (fun c => c.slots.bind (·.sidebarBottom))
                     (layoutContribs plugins ⟨renderer, root, routes⟩) } })
    ∧ (∀ ps1 ps2 : List LoomPlugin,
        layoutContribs (ps1 ++ ps2) ⟨renderer, root, routes⟩
          = layoutContribs ps1 ⟨renderer, root, routes⟩
            ++ layoutContribs ps2 ⟨renderer, root, routes⟩)
    ∧ (∀ vs : List Str, vs ≠ [] → (∀ v ∈ vs, tidyFrag v) →
        (vs.map some).foldl mergeClassName none = some (spaceJoin vs))
    ∧ (∀ v : Str, strTrim v = [] → mergeClassName none (some v) = none) := by
  refine ⟨runExtendLayout_spec renderer root routes plugins L0 L h,
    fun ps1 ps2 => by simp [layoutContribs, List.filterMap_append], ?_, ?_⟩
  · intro vs hne hvs
    cases vs with
    | nil => exact absurd rfl hne
    | cons v rest =>
      have hv := hvs v (by simp)
      rw [List.map_cons, List.foldl_cons, mergeClassName_none_tidy v hv]
      exact foldl_mergeClassName_tidy rest v hv (fun w hw => hvs w (by simp [hw]))
  · intro v htrim
    cases hve : v.isEmpty with
    | true => simp only [mergeClassName, hve, if_true]
    | false =>
      have hparts : (((none : Option Str).toList ++ [v]).filter (fun s => !s.isEmpty)) = [v] := by
        simp [Option.toList, List.filter, hve]
      simp only [mergeClassName, hve, Bool.false_eq_true, if_false, hparts, spaceJoin, htrim]
      rfl

/-- Witness for C9 on the two concrete layout plugins: the later plugin's
hide-flag override wins and appears in the merged layout. -/
theorem extendLayout_merge_witness :
    fxLayoutResult.hideDefaultHeader
      = lastOverride (fun c => c.hideDefaultHeader)
          (layoutContribs [fxLayoutPluginA, fxLayoutPluginB] fxLayoutInput) false := by
  have h := (extendLayout_merge (str "vite-react") (str "root") []
    [fxLayoutPluginA, fxLayoutPluginB] {} fxLayoutResult (by decide)).1
  rw [h]
  rfl

theorem attributedError_cons (p : LoomPlugin) (plugins : List LoomPlugin) (e : Str)
    (h : attributedError plugins e) : attributedError (p :: plugins) e := by
  obtain ⟨q, hq, hook, detail, he⟩ := h
  exact ⟨q, List.mem_cons_of_mem p hq, hook, detail, he⟩

theorem attributedError_head (p : LoomPlugin) (plugins : List LoomPlugin)
    (hook detail : Str) :
    attributedError (p :: plugins) (formatPluginError p.name hook detail) :=
  ⟨p, List.mem_cons_self p plugins, hook, detail, rfl⟩

theorem runTransformMdx_attr (renderer root file path : Str) (plugins : List LoomPlugin) :
    ∀ (source : Str) (fm : Frontmatter) (e : Str),
      runTransformMdx renderer root file path plugins source fm = .error e →
      attributedError plugins e := by
  induction plugins with
  | nil =>
    intro s fm e h
    rw [runTransformMdx] at h
    exact Except.noConfusion h
  | cons p rest ih =>
    intro s fm e h
    cases hk : p.hooks.transformMdx with
    | none =>
      simp only [runTransformMdx, hk] at h
      exact attributedError_cons p rest e (ih s fm e h)
    | some hook =>
      cases hr : hook ⟨file, fm, path, renderer, root, s⟩ with
      | error msg =>
        simp only [runTransformMdx, hk, hr, Except.error.injEq] at h
        rw [← h]
        exact attributedError_head p rest _ _
      | ok newSource =>
        simp only [runTransformMdx, hk, hr] at h
        exact attributedError_cons p rest e (ih newSource (parseFrontmatter newSource) e h)

theorem runMdxPage_attr (input : MdxPageInput) (plugins : List LoomPlugin) :
    ∀ (acc : MdxDecorationAcc) (e : Str),
      runMdxPage input plugins acc = .error e → attributedError plugins e := by
  induction plugins with
  | nil =>
    intro acc e h
    rw [runMdxPage] at h
    exact Except.noConfusion h
  | cons p rest ih =>
    intro acc e h
    cases hk : p.hooks.mdxPage with
    | none =>
      simp only [runMdxPage, hk] at h
      exact attributedError_cons p rest e (ih acc e h)
    | some hook =>
      cases hr : hook input with
      | error msg =>
        simp only [runMdxPage, hk, hr, Except.error.injEq] at h
        rw [← h]
        exact attributedError_head p rest _ _
      | ok copt =>
        cases copt with
        | none =>
          simp only [runMdxPage, hk, hr] at h
          exact attributedError_cons p rest e (ih acc e h)
        | some c =>
          simp only [runMdxPage, hk, hr] at h
          exact attributedError_cons p rest e (ih (decorateStep acc c) e h)

theorem prepareMdxFile_attr (plugins : List LoomPlugin) (renderer root file source e : Str)
    (h : prepareMdxFile plugins renderer root file source = .error e) :
    attributedError plugins e := by
  simp only [prepareMdxFile] at h
  cases ht : runTransformMdx renderer root file (toRoutePath file) plugins source
      (parseFrontmatter source) with
  | error e2 =>
    simp only [ht, Except.error.injEq] at h
    rw [← h]
    exact runTransformMdx_attr renderer root file (toRoutePath file) plugins source
      (parseFrontmatter source) e2 ht
  | ok pr =>
    obtain ⟨finalSource, fm⟩ := pr
    simp only [ht] at h
    cases hm : runMdxPage
        ⟨file, fm, toRoutePath file, renderer, root, finalSource, routeTitle fm (toRoutePath file)⟩
        plugins {} with
    | error e2 =>
      simp only [hm, Except.error.injEq] at h
      rw [← h]
      exact runMdxPage_attr _ plugins {} e2 hm
    | ok deco =>
      simp only [hm] at h
      exact Except.noConfusion h

theorem prepareMdxRoutes_attr (plugins : List LoomPlugin) (renderer root : Str) :
    ∀ (files : List (Str × Str)) (e : Str),
      prepareMdxRoutes plugins renderer root files = .error e →
      attributedError plugins e := by
  intro files
  induction files with
  | nil =>
    intro e h
    rw [prepareMdxRoutes] at h
    exact Except.noConfusion h
  | cons fs rest ih =>
    intro e h
    obtain ⟨file, source⟩ := fs
    cases hf : prepareMdxFile plugins renderer root file source with
    | error e2 =>
      simp only [prepareMdxRoutes, hf, Except.error.injEq] at h
      rw [← h]
      exact prepareMdxFile_attr plugins renderer root file source e2 hf
    | ok pr =>
      obtain ⟨route, mdxFile⟩ := pr
      simp only [prepareMdxRoutes, hf] at h
      cases hrest : prepareMdxRoutes plugins renderer root rest with
      | error e2 =>
        simp only [hrest, Except.error.injEq] at h
        rw [← h]
        exact ih e2 hrest
      | ok pr2 =>
        obtain ⟨routes, mdxFiles⟩ := pr2
        simp only [hrest] at h
        exact Except.noConfusion h

theorem runExtendLayout_attr (renderer root : Str) (routes : List PreparedRoute)
    (plugins : List LoomPlugin) :
    ∀ (L0 : PreparedLayout) (e : Str),
      runExtendLayout renderer root routes plugins L0 = .error e →
      attributedError plugins e := by
  induction plugins with
  | nil =>
    intro L0 e h
    rw [runExtendLayout] at h
    exact Except.noConfusion h
  | cons p rest ih =>
    intro L0 e h
    cases hk : p.hooks.extendLayout with
    | none =>
      simp only [runExtendLayout, hk] at h
      exact attributedError_cons p rest e (ih L0 e h)
    | some hook =>
      cases hr : hook ⟨renderer, root, routes⟩ with
      | error msg =>
        simp only [runExtendLayout, hk, hr, Except.error.injEq] at h
        rw [← h]
        exact attributedError_head p rest _ _
      | ok copt =>
        cases copt with
        | none =>
          simp only [runExtendLayout, hk, hr] at h
          exact attributedError_cons p rest e (ih L0 e h)
        | some c =>
          simp only [runExtendLayout, hk, hr] at h
          exact attributedError_cons p rest e (ih (mergeLayoutContribution L0 c) e h)

theorem runExtendPages_attr (renderer root : Str) (plugins : List LoomPlugin) :
    ∀ (taken : List Str) (routes : List PreparedRoute) (e : Str),
      runExtendPages renderer root plugins taken routes = .error e →
      attributedError plugins e := by
  induction plugins with
  | nil =>
    intro taken routes e h
    rw [runExtendPages] at h
    exact Except.noConfusion h
  | cons p rest ih =>
    intro taken routes e h
    cases hk : p.hooks.extendPages with
    | none =>
      simp only [runExtendPages, hk] at h
      exact attributedError_cons p rest e (ih taken routes e h)
    | some hook =>
      cases hr : hook ⟨renderer, root, routes⟩ with
      | error msg =>
        simp only [runExtendPages, hk, hr, Except.error.injEq] at h
        rw [← h]
        exact attributedError_head p rest _ _
      | ok pages =>
        simp only [runExtendPages, hk, hr] at h
        cases ha : addExtraPages (pages.getD []) taken routes with
        | error msg =>
          simp only [ha, Except.error.injEq] at h
          rw [← h]
          exact attributedError_head p rest _ _
        | ok pr =>
          obtain ⟨taken2, routes2⟩ := pr
          simp only [ha] at h
          exact attributedError_cons p rest e (ih taken2 routes2 e h)

theorem prepareLoomSite_ok_or_attributed (plugins : List LoomPlugin) (renderer root : Str)
    (files : List (Str × Str)) :
    (∃ site, prepareLoomSite plugins renderer root files = .ok site)
    ∨ (∃ e, prepareLoomSite plugins renderer root files = .error e
        ∧ attributedError plugins e) := by
  cases h1 : prepareMdxRoutes plugins renderer root files with
  | error e =>
    right
    exact ⟨e, by simp only [prepareLoomSite, h1],
      prepareMdxRoutes_attr plugins renderer root files e h1⟩
  | ok pr =>
    obtain ⟨routes, mdxFiles⟩ := pr
    cases h2 : runExtendLayout renderer root routes plugins {} with
    | error e =>
      right
      exact ⟨e, by simp only [prepareLoomSite, h1, h2],
        runExtendLayout_attr renderer root routes plugins {} e h2⟩
    | ok layout =>
      cases h3 : runExtendPages renderer root plugins (routes.map (·.path)) routes with
      | error e =>
        right
        exact ⟨e, by simp only [prepareLoomSite, h1, h2, h3],
          runExtendPages_attr renderer root plugins (routes.map (·.path)) routes e h3⟩
      | ok allRoutes =>
        left
        refine ⟨⟨root, layout, sortRoutes (fun a b => strLeB a.path b.path) allRoutes, mdxFiles,
          (sortRoutes (fun a b => strLeB a.path b.path) allRoutes).length⟩, ?_⟩
        simp only [prepareLoomSite, h1, h2, h3]

/-- C8: site preparation either succeeds with a full prepared site or aborts
with no routes, raising an error produced by `formatPluginError` from the
name of one of the configured plugins, a hook name and the underlying
detail — and such a message contains the plugin's name, the hook's name and
the underlying message as substrings.  Concretely, a plugin whose `mdxPage`
hook throws `"boom"` aborts the whole preparation with exactly the wrapped
message, even though a later plugin would still have contributed. -/
theorem prepare_hook_failure_attribution (plugins : List LoomPlugin) (renderer root : Str)
    (files : List (Str × Str)) :
    ((∃ site, prepareLoomSite plugins renderer root files = .ok site)
      ∨ (∃ e, prepareLoomSite plugins renderer root files = .error e
          ∧ attributedError plugins e))
    ∧ (∀ pluginName hookName detail : Str,
        strContains (formatPluginError pluginName hookName detail) pluginName = true
        ∧ strContains (formatPluginError pluginName hookName detail) hookName = true
        ∧ strContains (formatPluginError pluginName hookName detail) detail = true)
    ∧ prepareLoomSite [fxDecoPluginA, fxThrowingMdxPagePlugin, fxDecoPluginB]
        (str "vite-react") (str "root") [(str "a.mdx", str "x")]
      = .error (formatPluginError (str "thrower") (str "mdxPage") (str "boom")) := by
  refine ⟨prepareLoomSite_ok_or_attributed plugins renderer root files, ?_, by decide⟩
  intro pluginName hookName detail
  refine ⟨?_, ?_, ?_⟩
  · simpa [formatPluginError, List.append_assoc] using
      strContains_append_mid (str "Plugin \"") pluginName
        (str "\" failed in hook \"" ++ hookName ++ str "\": " ++ detail)
  · simpa [formatPluginError, List.append_assoc] using
      strContains_append_mid (str "Plugin \"" ++ pluginName ++ str "\" failed in hook \"")
        hookName (str "\": " ++ detail)
  · simpa [formatPluginError, List.append_assoc] using
      strContains_append_mid
        (str "Plugin \"" ++ pluginName ++ str "\" failed in hook \"" ++ hookName ++ str "\": ")
        detail []

theorem prepareMdxRoutes_routes (plugins : List LoomPlugin) (renderer root : Str) :
    ∀ (files : List (Str × Str)) (routes : List PreparedRoute) (mdxFiles : List (Str × Str)),
      prepareMdxRoutes plugins renderer root files = .ok (routes, mdxFiles) →
      ∀ r ∈ routes,
        r.kind = RouteKind.mdx
        ∧ r.title = (match ctxGet r.frontmatter (str "title") with
            | some (Value.vStr t) => t
            | _ => basename (if r.path = str "/" then str "index" else r.path))
        ∧ r.navLabel = (match ctxGet r.frontmatter (str "navLabel") with
            | some (Value.vStr n) => n
            | _ => r.title)
        ∧ (r.showInSidebar = true
            ↔ ctxGet r.frontmatter (str "sidebar") ≠ some (Value.vBool false)) := by
  intro files
  induction files with
  | nil =>
    intro routes mdxFiles h r hr
    rw [prepareMdxRoutes] at h
    injection h with h
    cases h
    exact absurd hr (List.not_mem_nil r)
  | cons fs rest ih =>
    intro routes mdxFiles h r hr
    obtain ⟨file, source⟩ := fs
    cases hf : prepareMdxFile plugins renderer root file source with
    | error e =>
      simp only [prepareMdxRoutes, hf] at h
      exact Except.noConfusion h
    | ok pr =>
      obtain ⟨route, mdxFile⟩ := pr
      simp only [prepareMdxRoutes, hf] at h
      cases hrest : prepareMdxRoutes plugins renderer root rest with
      | error e =>
        simp only [hrest] at h
        exact Except.noConfusion h
      | ok pr2 =>
        obtain ⟨routes1, mdxFiles1⟩ := pr2
        simp only [hrest] at h
        injection h with h
        cases h
        rcases List.mem_cons.mp hr with hEq | hMem
        · subst hEq
          simp only [prepareMdxFile] at hf
          cases ht : runTransformMdx renderer root file (toRoutePath file) plugins source
              (parseFrontmatter source) with
          | error e =>
            simp only [ht] at hf
            exact Except.noConfusion hf
          | ok prt =>
            obtain ⟨finalSource, fm⟩ := prt
            simp only [ht] at hf
            cases hm : runMdxPage
                ⟨file, fm, toRoutePath file, renderer, root, finalSource,
                  routeTitle fm (toRoutePath file)⟩ plugins {} with
            | error e =>
              simp only [hm] at hf
              exact Except.noConfusion hf
            | ok deco =>
              simp only [hm] at hf
              injection hf with hf
              injection hf with hf1 hf2
              cases hf1
              refine ⟨rfl, rfl, rfl, ?_⟩
              constructor
              · intro hs
                exact of_decide_eq_true hs
              · intro hs
                exact decide_eq_true hs
        · exact ih routes1 mdxFiles1 hrest r hMem

theorem addExtraPages_spec (pages : List LoomExtraPage) :
    ∀ (taken : List Str) (routes : List PreparedRoute) (taken2 : List Str)
      (routes2 : List PreparedRoute),
      addExtraPages pages taken routes = .ok (taken2, routes2) →
      (∀ x : Str, x ∈ taken ↔ ∃ r ∈ routes, r.path = x) →
      ((∀ x : Str, x ∈ taken2 ↔ ∃ r ∈ routes2, r.path = x)
        ∧ (∀ r ∈ routes2, r ∈ routes ∨ r.kind = RouteKind.html)
        ∧ ((∀ r ∈ routes, r.kind = RouteKind.html →
              routes.countP (fun q => q.path == r.path) = 1) →
            ∀ r ∈ routes2, r.kind = RouteKind.html →
              routes2.countP (fun q => q.path == r.path) = 1)) := by
  induction pages with
  | nil =>
    intro taken routes taken2 routes2 h hT
    rw [addExtraPages] at h
    injection h with h
    cases h
    exact ⟨hT, fun r hr => Or.inl hr, fun hU => hU⟩
  | cons page rest ih =>
    intro taken routes taken2 routes2 h hT
    by_cases hmem : normalizeRoutePath page.path ∈ taken
    · simp only [addExtraPages, if_pos hmem] at h
      exact Except.noConfusion h
    · simp only [addExtraPages, if_neg hmem] at h
      have hnewpath : (extraPageToRoute (normalizeRoutePath page.path) page).path
          = normalizeRoutePath page.path := rfl
      have hnewkind : (extraPageToRoute (normalizeRoutePath page.path) page).kind
          = RouteKind.html := rfl
      have hT' : ∀ x : Str, x ∈ normalizeRoutePath page.path :: taken
          ↔ ∃ r ∈ routes ++ [extraPageToRoute (normalizeRoutePath page.path) page],
              r.path = x := by
        intro x
        constructor
        · intro hx
          rcases List.mem_cons.mp hx with hx1 | hx2
          · exact ⟨extraPageToRoute (normalizeRoutePath page.path) page,
              List.mem_append_right _ (by simp), by rw [hnewpath, hx1]⟩
          · obtain ⟨r, hrm, hrp⟩ := (hT x).mp hx2
            exact ⟨r, List.mem_append_left _ hrm, hrp⟩
        · rintro ⟨r, hrm, hrp⟩
          rcases List.mem_append.mp hrm with hr1 | hr2
          · exact List.mem_cons_of_mem _ ((hT x).mpr ⟨r, hr1, hrp⟩)
          · have hre : r = extraPageToRoute (normalizeRoutePath page.path) page := by
              simpa using hr2
            subst hre
            rw [← hrp, hnewpath]
            exact List.mem_cons_self _ _
      have hforward := ih (normalizeRoutePath page.path :: taken)
        (routes ++ [extraPageToRoute (normalizeRoutePath page.path) page])
        taken2 routes2 h hT'
      refine ⟨hforward.1, ?_, ?_⟩
      · intro r hr
        rcases hforward.2.1 r hr with hr1 | hr2
        · rcases List.mem_append.mp hr1 with ha | hb
          · exact Or.inl ha
          · have hre : r = extraPageToRoute (normalizeRoutePath page.path) page := by
              simpa using hb
            subst hre
            exact Or.inr hnewkind
        · exact Or.inr hr2
      · intro hU
        apply hforward.2.2
        intro r hrm hrk
        rcases List.mem_append.mp hrm with ha | hb
        · have hcnt := hU r ha hrk
          have hnotpath : normalizeRoutePath page.path ≠ r.path := by
            intro hcontra
            exact hmem (hcontra ▸ (hT r.path).mpr ⟨r, ha, rfl⟩)
          have hz : List.countP (fun q => q.path == r.path)
              [extraPageToRoute (normalizeRoutePath page.path) page] = 0 := by
            have hne : ((extraPageToRoute (normalizeRoutePath page.path) page).path
                == r.path) = false := by
              rw [hnewpath]
              exact beq_false_of_ne hnotpath
            simp [List.countP_cons, hne]
          rw [List.countP_append, hz]
          exact hcnt
        · have hre : r = extraPageToRoute (normalizeRoutePath page.path) page := by
            simpa using hb
          subst hre
          have hz : List.countP
              (fun q => q.path == (extraPageToRoute (normalizeRoutePath page.path) page).path)
              routes = 0 := by
            rw [List.countP_eq_zero]
            intro q hq hq2
            rw [hnewpath] at hq2
            have hqp : q.path = normalizeRoutePath page.path := by
              have := of_decide_eq_true (by simpa using hq2)
              exact this
            exact hmem ((hT (normalizeRoutePath page.path)).mpr ⟨q, hq, hqp⟩)
          rw [List.countP_append, hz, Nat.zero_add]
          simp [List.countP_cons]

theorem runExtendPages_spec (renderer root : Str) (plugins : List LoomPlugin) :
    ∀ (taken : List Str) (routes routes2 : List PreparedRoute),
      runExtendPages renderer root plugins taken routes = .ok routes2 →
      (∀ x : Str, x ∈ taken ↔ ∃ r ∈ routes, r.path = x) →
      ((∀ r ∈ routes2, r ∈ routes ∨ r.kind = RouteKind.html)
        ∧ ((∀ r ∈ routes, r.kind = RouteKind.html →
              routes.countP (fun q => q.path == r.path) = 1) →
            ∀ r ∈ routes2, r.kind = RouteKind.html →
              routes2.countP (fun q => q.path == r.path) = 1)) := by
  induction plugins with
  | nil =>
    intro taken routes routes2 h hT
    rw [runExtendPages] at h
    injection h with h
    subst h
    exact ⟨fun r hr => Or.inl hr, fun hU => hU⟩
  | cons p rest ih =>
    intro taken routes routes2 h hT
    cases hk : p.hooks.extendPages with
    | none =>
      simp only [runExtendPages, hk] at h
      exact ih taken routes routes2 h hT
    | some hook =>
      cases hr : hook ⟨renderer, root, routes⟩ with
      | error e =>
        simp only [runExtendPages, hk, hr] at h
        exact Except.noConfusion h
      | ok pages =>
        simp only [runExtendPages, hk, hr] at h
        cases ha : addExtraPages (pages.getD []) taken routes with
        | error e =>
          simp only [ha] at h
          exact Except.noConfusion h
        | ok pr =>
          obtain ⟨taken1, routes1⟩ := pr
          simp only [ha] at h
          have hadd := addExtraPages_spec (pages.getD []) taken routes taken1 routes1 ha hT
          have hrec := ih taken1 routes1 routes2 h hadd.1
          refine ⟨?_, ?_⟩
          · intro r hr2
            rcases hrec.1 r hr2 with h1 | h2
            · exact hadd.2.1 r h1
            · exact Or.inr h2
          · intro hU
            exact hrec.2 (hadd.2.2 hU)

/-- C2 counterexample: two content files (`a.mdx` and `a/index.mdx`) derive
the same normalized path `/a`; preparation returns this route list without
raising any error, so a prepared site can contain two routes sharing one
path — content-derived collisions are never checked. -/
theorem route_collision_claim_counterexample :
    (prepareLoomSite [] (str "vite-react") (str "root")
        [(str "a.mdx", str "x"), (str "a/index.mdx", str "y")]).toOption.map
      (fun s => s.routes.map (fun r => r.path))
    = some [str "/a", str "/a"] := by
  decide

/-- C2 (amended): in every successfully prepared site, no plugin-synthesized
route shares its normalized path with any other route (content-derived or
synthesized): its path occurs exactly once in the whole route list.  A
collision hit during the extra-pages pass — between two plugin pages or
between a plugin page and a content route — aborts preparation with an
error naming the colliding path (wrapped in the offending plugin's
`extendPages` attribution); two content-derived routes, however, may share
a path undetected. -/
theorem prepared_site_synthesized_paths_unique :
    (∀ (plugins : List LoomPlugin) (renderer root : Str) (files : List (Str × Str))
        (site : PreparedSite),
      prepareLoomSite plugins renderer root files = .ok site →
      ∀ r ∈ site.routes, r.kind = RouteKind.html →
        site.routes.countP (fun q => q.path == r.path) = 1)
    ∧ prepareLoomSite [fxExtraPagePlugin (str "p1") (str "/same-path"),
        fxExtraPagePlugin (str "p2") (str "/same-path")] (str "vite-react") (str "root") []
      = .error (formatPluginError (str "p2") (str "extendPages")
          (collisionMessage (str "/same-path")))
    ∧ prepareLoomSite [fxExtraPagePlugin (str "p1") (str "/same-path")]
        (str "vite-react") (str "root") [(str "same-path.mdx", str "x")]
      = .error (formatPluginError (str "p1") (str "extendPages")
          (collisionMessage (str "/same-path")))
    ∧ (∀ pluginName path : Str,
        strContains
          (formatPluginError pluginName (str "extendPages") (collisionMessage path))
          path = true) := by
  refine ⟨?_, by decide, by decide, ?_⟩
  · intro plugins renderer root files site h r hr hk
    cases hms : prepareMdxRoutes plugins renderer root files with
    | error e =>
      simp only [prepareLoomSite, hms] at h
      exact Except.noConfusion h
    | ok pr =>
      obtain ⟨routes0, mdxFiles⟩ := pr
      simp only [prepareLoomSite, hms] at h
      cases hl : runExtendLayout renderer root routes0 plugins {} with
      | error e =>
        simp only [hl] at h
        exact Except.noConfusion h
      | ok layout =>
        simp only [hl] at h
        cases hp : runExtendPages renderer root plugins (routes0.map (·.path)) routes0 with
        | error e =>
          simp only [hp] at h
          exact Except.noConfusion h
        | ok allRoutes =>
          simp only [hp] at h
          injection h with h
          subst h
          have hT0 : ∀ x : Str, x ∈ routes0.map (·.path) ↔ ∃ q ∈ routes0, q.path = x := by
            intro x
            exact List.mem_map
          have hU0 : ∀ q ∈ routes0, q.kind = RouteKind.html →
              routes0.countP (fun q2 => q2.path == q.path) = 1 := by
            intro q hq hqk
            have hmdx := (prepareMdxRoutes_routes plugins renderer root files routes0
              mdxFiles hms q hq).1
            rw [hmdx] at hqk
            exact RouteKind.noConfusion hqk
          have hspec := runExtendPages_spec renderer root plugins (routes0.map (·.path))
            routes0 allRoutes hp hT0
          have hrmem : r ∈ allRoutes := (sortRoutes_perm (fun a b => strLeB a.path b.path) allRoutes).mem_iff.mp hr
          have hcnt := hspec.2 hU0 r hrmem hk
          calc (sortRoutes (fun a b => strLeB a.path b.path) allRoutes).countP
                (fun q => q.path == r.path)
              = allRoutes.countP (fun q => q.path == r.path) :=
                (sortRoutes_perm (fun a b => strLeB a.path b.path) allRoutes).countP_eq _
            _ = 1 := hcnt
  · intro pluginName path
    simpa [formatPluginError, collisionMessage, List.append_assoc] using
      strContains_append_mid
        (str "Plugin \"" ++ pluginName ++ str "\" failed in hook \"" ++ str "extendPages"
          ++ str "\": " ++ str "Route path collision for \"")
        path (str "\".")

/-- Witness for C2's amended theorem: the synthesized `/extra` route of the
concrete prepared site has a unique path. -/
theorem prepared_site_synthesized_paths_unique_witness :
    fxSiteExtra.routes.countP (fun q => q.path == fxRouteExtra.path) = 1 :=
  prepared_site_synthesized_paths_unique.1 [fxExtraPagePlugin (str "p1") (str "/extra")]
    (str "vite-react") (str "root") [(str "index.mdx", str "x")] fxSiteExtra (by decide)
    fxRouteExtra (by decide) (by decide)

/-- C6 counterexample: `guide/setup.mdx` with no frontmatter gets the bare
base name `setup` as its title (and navigation label), not the humanized
`Setup` the claim requires; and a frontmatter `sidebar: 0`, although a
falsy flag, leaves `showInSidebar` true because only the literal boolean
`false` hides a route. -/
theorem title_not_humanized_counterexample :
    (fxPrepGuide.toOption.map
        (fun s => s.routes.map (fun r => (r.path, r.title, r.navLabel, r.showInSidebar))))
      = some [(str "/guide/setup", str "setup", str "setup", true)]
    ∧ str "setup" ≠ str "Setup"
    ∧ ((prepareLoomSite [] (str "vite-react") (str "root")
          [(str "a.mdx", str "---\nsidebar: 0\n---\nx")]).toOption.map
        (fun s => s.routes.map (fun r => (r.showInSidebar, ctxGet r.frontmatter (str "sidebar")))))
      = some [(true, some (Value.vNum (str "0")))] := by
  exact ⟨by decide, by decide, by decide⟩

/-- C6 (amended): for every content file, the route's title is the
frontmatter `title` when that is a string, else the bare base name of the
derived route path (for the root route, the base name of `index` — i.e.
`index`, with no humanization and no `Home` default); `navLabel` is the
frontmatter `navLabel` when a string, else the title; and `showInSidebar`
is true unless the frontmatter `sidebar` value is exactly the boolean
`false`. -/
theorem mdx_route_title_defaults (plugins : List LoomPlugin) (renderer root : Str)
    (files : List (Str × Str)) (site : PreparedSite)
    (h : prepareLoomSite plugins renderer root files = .ok site) :
    ∀ r ∈ site.routes, r.kind = RouteKind.mdx →
      (r.title = (match ctxGet r.frontmatter (str "title") with
          | some (Value.vStr t) => t
          | _ => basename (if r.path = str "/" then str "index" else r.path))
       ∧ r.navLabel = (match ctxGet r.frontmatter (str "navLabel") with
          | some (Value.vStr n) => n
          | _ => r.title)
       ∧ (r.showInSidebar = true
          ↔ ctxGet r.frontmatter (str "sidebar") ≠ some (Value.vBool false))) := by
  intro r hr hk
  cases hms : prepareMdxRoutes plugins renderer root files with
  | error e =>
    simp only [prepareLoomSite, hms] at h
    exact Except.noConfusion h
  | ok pr =>
    obtain ⟨routes0, mdxFiles⟩ := pr
    simp only [prepareLoomSite, hms] at h
    cases hl : runExtendLayout renderer root routes0 plugins {} with
    | error e =>
      simp only [hl] at h
      exact Except.noConfusion h
    | ok layout =>
      simp only [hl] at h
      cases hp : runExtendPages renderer root plugins (routes0.map (·.path)) routes0 with
      | error e =>
        simp only [hp] at h
        exact Except.noConfusion h
      | ok allRoutes =>
        simp only [hp] at h
        injection h with h
        subst h
        have hT0 : ∀ x : Str, x ∈ routes0.map (·.path) ↔ ∃ q ∈ routes0, q.path = x := by
          intro x
          exact List.mem_map
        have hspec := runExtendPages_spec renderer root plugins (routes0.map (·.path))
          routes0 allRoutes hp hT0
        have hrmem : r ∈ allRoutes := (sortRoutes_perm (fun a b => strLeB a.path b.path) allRoutes).mem_iff.mp hr
        rcases hspec.1 r hrmem with hmem0 | hhtml
        · have hprops := prepareMdxRoutes_routes plugins renderer root files routes0
            mdxFiles hms r hmem0
          exact ⟨hprops.2.1, hprops.2.2.1, hprops.2.2.2⟩
        · rw [hk] at hhtml
          exact RouteKind.noConfusion hhtml

/-- Witness for C6's amended theorem on the concrete `guide/setup.mdx`
site. -/
theorem mdx_route_title_defaults_witness :
    fxRouteGuide.title
      = (match ctxGet fxRouteGuide.frontmatter (str "title") with
         | some (Value.vStr t) => t
         | _ => basename (if fxRouteGuide.path = str "/" then str "index"
                  else fxRouteGuide.path)) :=
  (mdx_route_title_defaults [] (str "vite-react") (str "root") fxGuideFiles fxSiteGuide
    (by decide) fxRouteGuide (by decide) (by decide)).1

end Loom
